import Mathlib

/-!
# uniqush-push: the push processor

A shallow embedding of `src/uniqush/pushprocessor.go` and theorems about it.

Conventions of the embedding:

* Go's `int64` values are integers reduced by `wrap64` after every arithmetic
  operation; Go's `int` values are integers (every `int` operation of the file
  is guarded so that it stays in range, see the remarks at each definition).
* Pointers that the code compares with `nil` are `Option`s.
* Effects (calls to the credential store, to a delivery backend, to the event
  writer, to the logger, sends on channels) are recorded, in the order in which
  they happen, in the `trace` of a `World`; the states of the delivery backends
  and of the credential store are threaded through the calls.
* A run-time panic (index or slice out of range, division by zero, nil
  dereference) is the result `Run.panic`.
-/

namespace Uniqush

/-! ## Machine integers -/

/-- Two's-complement reduction of an integer to the range of Go's `int64`. -/
def wrap64 (x : Int) : Int := (x + 2 ^ 63) % 2 ^ 64 - 2 ^ 63

/-! ## Data model

The types below are declared outside `pushprocessor.go`; they are given with
the fields and methods that `pushprocessor.go` uses. -/

/-- A provider credential. `validServiceType` and `serviceID` are the results
of the methods `ValidServiceType()` and `ServiceID()`. -/
structure PushServiceProvider where
  Name : String
  validServiceType : Bool
  serviceID : Int
deriving DecidableEq, Repr

/-- A device endpoint. -/
structure DeliveryPoint where
  Name : String
deriving DecidableEq, Repr

/-- A notification payload. -/
structure Notification where
  Data : List (String × String)
deriving DecidableEq, Repr

/-- One element of the result of `GetPushServiceProviderDeliveryPointPairs`. -/
structure PushServiceProviderDeliveryPointPair where
  PushServiceProvider : PushServiceProvider
  DeliveryPoint : DeliveryPoint
deriving DecidableEq, Repr

/-- The values of Go's `error` interface that the processor tells apart with
its two type switches: `*RefreshDataError`, `*RetryError`, and anything
else. -/
inductive Error where
  | RefreshDataError (PushServiceProvider : Option PushServiceProvider)
      (DeliveryPoint : Option DeliveryPoint) (OtherError : Option Error)
  | RetryError (RetryAfter : Int)
  | Other (msg : String)

/-- A request. `PreviousTry` is the back-link to the prior attempt;
`timestamp` is what `PunchTimestamp` sets. -/
structure Request where
  ID : String
  Action : Int
  Service : String
  Subscribers : List String
  PushServiceProvider : Option PushServiceProvider
  DeliveryPoint : Option DeliveryPoint
  Notification : Option Notification
  nrRetries : Int
  backoffTime : Int
  PreviousTry : Option Request
  timestamp : Int

/-- The task sent to the retry scheduler: `execTime` is the field of the
embedded `TaskTime`. The channel `backendch` is the processor's own and is
left out. -/
structure retryPushTask where
  execTime : Int
  req : Request

/-- One element of the result of `push`. The field `dp` is a pointer, `nil`
when `pushToSingleDeliveryPoint` runs on a request without a device. -/
structure successPushLog where
  dp : Option DeliveryPoint
  subid : Nat
  id : String
deriving DecidableEq, Repr

/-- The lines written with `p.logger.Printf`, by their tag and arguments. -/
inductive LogLine where
  | Debug (service : String) (subscribers : List String)
  | PushFailDatabaseError (service subscriber : String) (err : Error)
  | UpdatePushServiceProvider (service name : String)
  | UpdateDeliveryPoint (name : String)
  | PushRetry (service subscriber dpName : String) (err : Error)
  | PushFail (service subscriber dpName : String) (err : Error)
  | PushRequestSuccess (service subscriber dpName id : String)

/-- The observable effects of the processor. -/
inductive Event where
  /-- A call of `p.dbfront.GetPushServiceProviderDeliveryPointPairs`. -/
  | GetPairs (service subscriber : String)
  /-- A call of `p.pushers[..].Push`. -/
  | Push (psp : PushServiceProvider) (dp : Option DeliveryPoint) (n : Option Notification)
  /-- A call of `p.dbfront.ModifyPushServiceProvider`. -/
  | ModifyPushServiceProvider (psp : PushServiceProvider)
  /-- A call of `p.dbfront.ModifyDeliveryPoint`. -/
  | ModifyDeliveryPoint (dp : DeliveryPoint)
  /-- A send `p.qch <- task`. -/
  | Submit (task : retryPushTask)
  /-- A call of `p.writer.PushFail`. -/
  | PushFail (req : Request) (subscriber : String) (dp : Option DeliveryPoint) (err : Error)
  /-- A call of `p.writer.PushSuccess`. -/
  | PushSuccess (req : Request) (subscriber : String) (dp : DeliveryPoint) (id : String)
  /-- A call of `p.logger.Printf`. -/
  | Log (line : LogLine)
  /-- A send `finish <- true`. -/
  | FinishSend
  /-- A receive `<-finish`. -/
  | FinishRecv

/-- The state the processor acts on: the state of the delivery backends, the
state of the credential store, the number of clock readings taken so far, and
the effects so far (oldest first). -/
structure World (β δ : Type) where
  backend : β
  db : δ
  ticks : Nat
  trace : List Event

/-- The processor with what it calls into. `pushers i` is the `Push` method of
`p.pushers[i]`; the three store functions are the methods of `p.dbfront`;
`Nanoseconds k` is the k-th reading of `time.Nanoseconds()`; `ACTION_PUSH` is
the package constant of that name. -/
structure PushProcessor (β δ : Type) where
  pushers : Int → β → PushServiceProvider → Option DeliveryPoint → Option Notification →
    (String × Option Error) × β
  GetPushServiceProviderDeliveryPointPairs : δ → String → String →
    (List PushServiceProviderDeliveryPointPair × Option Error) × δ
  ModifyPushServiceProvider : δ → PushServiceProvider → δ
  ModifyDeliveryPoint : δ → DeliveryPoint → δ
  Nanoseconds : Nat → Int
  ACTION_PUSH : Int
  max_nr_gorountines : Int
  max_nr_retry : Int

/-- The constant `init_backoff_time = 3E9`. -/
def init_backoff_time : Int := 3000000000

/-! ## retryRequest -/

/-- The function `retryRequest` (lines 55-93). `PunchTimestamp` takes one clock
reading, line 84 takes the next. `req.nrRetries + 1` cannot overflow, since
`req.nrRetries < p.max_nr_retry`. -/
def retryRequest {β δ : Type} (p : PushProcessor β δ) (w : World β δ) (req : Request)
    (retryAfter : Int) (subscriber : String) (psp : Option PushServiceProvider)
    (dp : Option DeliveryPoint) : World β δ :=
  if req.nrRetries ≥ p.max_nr_retry then w
  else
    let newreq : Request :=
      { nrRetries := req.nrRetries + 1
        PreviousTry := some req
        ID := req.ID
        Action := p.ACTION_PUSH
        PushServiceProvider := psp
        DeliveryPoint := dp
        Service := req.Service
        Subscribers := [subscriber]
        timestamp := p.Nanoseconds w.ticks
        Notification := none
        backoffTime :=
          if req.nrRetries = 0 ∨ req.backoffTime = 0 then init_backoff_time
          else wrap64 (req.backoffTime * 2) }
    let ra : Int := wrap64 (wrap64 retryAfter * 1000000000)
    let exect : Int := wrap64 (p.Nanoseconds (w.ticks + 1) + newreq.backoffTime)
    let task : retryPushTask :=
      { execTime := if exect < ra then ra else exect
        req := newreq }
    { w with ticks := w.ticks + 2, trace := w.trace ++ [Event.Submit task] }

/-! ## push -/

/-- The result of a run that may panic, or that may exhaust the fuel given to
a loop of the model. -/
inductive Run (α : Type) where
  | ok (a : α)
  | panic
  | timeout

/-- The body of the loop of `push` over the pairs (lines 193-231), for one
pair. `defers` is the stack of calls deferred so far in the enclosing call of
`push`, the latest first. The result is the value left in `ret[i]`, the world
and the stack of deferred calls. The provider and the device of a pair that
the store returns are not `nil`. -/
def pushBody {β δ : Type} (p : PushProcessor β δ) (req : Request) (service subscriber : String)
    (subid : Nat) (pdpair : PushServiceProviderDeliveryPointPair) (w : World β δ)
    (defers : List Event) : Option successPushLog × World β δ × List Event :=
  let psp := pdpair.PushServiceProvider
  let dp := pdpair.DeliveryPoint
  if psp.validServiceType then
    let r := p.pushers psp.serviceID w.backend psp (some dp) req.Notification
    let id := r.1.1
    let w1 : World β δ :=
      { w with backend := r.2, trace := w.trace ++ [Event.Push psp (some dp) req.Notification] }
    match r.1.2 with
    | some err =>
      -- the first type switch: `Sum.inl` is its `continue`, `Sum.inr` falls through
      let s : (Option successPushLog × World β δ × List Event) ⊕ (World β δ × List Event × Error) :=
        match err with
        | Error.RefreshDataError rpsp rdp other =>
          let u : World β δ × List Event :=
            match rpsp with
            | some x =>
              ({ w1 with db := p.ModifyPushServiceProvider w1.db x,
                         trace := w1.trace ++ [Event.ModifyPushServiceProvider x] },
               Event.Log (LogLine.UpdatePushServiceProvider service x.Name) :: defers)
            | none => (w1, defers)
          let v : World β δ × List Event :=
            match rdp with
            | some y =>
              ({ u.1 with db := p.ModifyDeliveryPoint u.1.db y,
                          trace := u.1.trace ++ [Event.ModifyDeliveryPoint y] },
               Event.Log (LogLine.UpdateDeliveryPoint y.Name) :: u.2)
            | none => u
          match other with
          | some e => Sum.inr (v.1, v.2, e)
          | none => Sum.inl (some ⟨some dp, subid, id⟩, v.1, v.2)
        | e => Sum.inr (w1, defers, e)
      match s with
      | Sum.inl out => out
      | Sum.inr (w2, d2, e) =>
        -- the second type switch
        match e with
        | Error.RetryError retryAfter =>
          (none, retryRequest p w2 req retryAfter subscriber (some psp) (some dp),
           Event.Log (LogLine.PushRetry service subscriber dp.Name e) :: d2)
        | _ =>
          (none, w2,
           Event.PushFail req subscriber (some dp) e ::
             Event.Log (LogLine.PushFail service subscriber dp.Name e) :: d2)
    | none => (some ⟨some dp, subid, id⟩, w1, defers)
  else (none, w, defers)

/-- The loop of `push` over the pairs (lines 192-232). -/
def pushLoop {β δ : Type} (p : PushProcessor β δ) (req : Request) (service subscriber : String)
    (subid : Nat) : List PushServiceProviderDeliveryPointPair → World β δ → List Event →
    List (Option successPushLog) × World β δ × List Event
  | [], w, defers => ([], w, defers)
  | pdpair :: rest, w, defers =>
    let r := pushBody p req service subscriber subid pdpair w defers
    let rs := pushLoop p req service subscriber subid rest r.2.1 r.2.2
    (r.1 :: rs.1, rs.2.1, rs.2.2)

/-- The function `push` (lines 178-235). The deferred calls run when the
function returns, the latest first. -/
def push {β δ : Type} (p : PushProcessor β δ) (w : World β δ) (req : Request)
    (service subscriber : String) (subid : Nat) : List (Option successPushLog) × World β δ :=
  let r := p.GetPushServiceProviderDeliveryPointPairs w.db service subscriber
  let pspdppairs := r.1.1
  let w1 : World β δ :=
    { w with db := r.2, trace := w.trace ++ [Event.GetPairs service subscriber] }
  let w2 : World β δ :=
    match r.1.2 with
    | some err =>
      { w1 with trace := w1.trace ++
          [Event.Log (LogLine.PushFailDatabaseError service subscriber err),
           Event.PushFail req subscriber none err] }
    | none => w1
  if pspdppairs.length ≤ 0 then ([], w2)
  else
    let l := pushLoop p req service subscriber subid pspdppairs w2 []
    (l.1, { l.2.1 with trace := l.2.1.trace ++ l.2.2 })

/-! ## pushToSingleDeliveryPoint -/

/-- The function `pushToSingleDeliveryPoint` (lines 129-176). `req.Subscribers[0]`
panics on an empty list, and `psp.ValidServiceType()` on a provider that is
`nil`. The device may be `nil`: it is handed to the backend and stored in the
outcome as it is, and the code panics where it reads `dp.Name`, on lines 164
and 168 (on line 164 after the call of `retryRequest`). -/
def pushToSingleDeliveryPoint {β δ : Type} (p : PushProcessor β δ) (w : World β δ)
    (req : Request) : Run (List (Option successPushLog) × World β δ) :=
  match req.Subscribers, req.PushServiceProvider with
  | subscriber :: _, some psp =>
    let subid := 0
    let service := req.Service
    let dp := req.DeliveryPoint
    if psp.validServiceType then
      let r := p.pushers psp.serviceID w.backend psp dp req.Notification
      let id := r.1.1
      let w1 : World β δ :=
        { w with backend := r.2, trace := w.trace ++ [Event.Push psp dp req.Notification] }
      match r.1.2 with
      | some err =>
        -- the first type switch: `Sum.inl` is its `return ret`, `Sum.inr` falls through
        let s : (List (Option successPushLog) × World β δ) ⊕ (World β δ × List Event × Error) :=
          match err with
          | Error.RefreshDataError rpsp rdp other =>
            let u : World β δ × List Event :=
              match rpsp with
              | some x =>
                ({ w1 with db := p.ModifyPushServiceProvider w1.db x,
                           trace := w1.trace ++ [Event.ModifyPushServiceProvider x] },
                 [Event.Log (LogLine.UpdatePushServiceProvider service x.Name)])
              | none => (w1, [])
            let v : World β δ × List Event :=
              match rdp with
              | some y =>
                ({ u.1 with db := p.ModifyDeliveryPoint u.1.db y,
                            trace := u.1.trace ++ [Event.ModifyDeliveryPoint y] },
                 Event.Log (LogLine.UpdateDeliveryPoint y.Name) :: u.2)
              | none => u
            match other with
            | some e => Sum.inr (v.1, v.2, e)
            | none =>
              Sum.inl ([some ⟨dp, subid, id⟩], { v.1 with trace := v.1.trace ++ v.2 })
          | e => Sum.inr (w1, [], e)
        match s with
        | Sum.inl out => Run.ok out
        | Sum.inr (w2, d2, e) =>
          -- the second type switch
          match e with
          | Error.RetryError retryAfter =>
            let w3 := retryRequest p w2 req retryAfter subscriber (some psp) dp
            match dp with
            | some d =>
              Run.ok ([none], { w3 with trace := w3.trace ++
                (Event.Log (LogLine.PushRetry service subscriber d.Name e) :: d2) })
            | none => Run.panic
          | _ =>
            match dp with
            | some d =>
              Run.ok ([none], { w2 with trace := w2.trace ++
                (Event.PushFail req subscriber dp e ::
                  Event.Log (LogLine.PushFail service subscriber d.Name e) :: d2) })
            | none => Run.panic
      | none => Run.ok ([some ⟨dp, subid, id⟩], w1)
    else Run.ok ([none], w)
  | _, _ => Run.panic

/-! ## pushBulk -/

/-- The first loop of `pushBulk` (lines 239-242): `push` for each subscriber of
the subset in turn, `i` being the index of the subscriber in the subset. -/
def pushBulkLoop {β δ : Type} (p : PushProcessor β δ) (req : Request) (service : String) :
    List String → Nat → World β δ → List (Option successPushLog) →
    List (Option successPushLog) × World β δ
  | [], _, w, dps => (dps, w)
  | sub :: rest, i, w, dps =>
    let r := push p w req service sub i
    pushBulkLoop p req service rest (i + 1) r.2 (dps ++ r.1)

/-- The second loop of `pushBulk` (lines 245-252): the log line and the event
of each success. `subscribers[pushlog.subid]` panics when out of range, and
`pushlog.dp.Name` when the device is `nil`. -/
def pushBulkReport {β δ : Type} (req : Request) (service : String) (subscribers : List String) :
    List (Option successPushLog) → World β δ → Run (World β δ)
  | [], w => Run.ok w
  | none :: rest, w => pushBulkReport req service subscribers rest w
  | some pushlog :: rest, w =>
    match subscribers[pushlog.subid]?, pushlog.dp with
    | some sub, some dp =>
      pushBulkReport req service subscribers rest
        { w with trace := w.trace ++
            [Event.Log (LogLine.PushRequestSuccess service sub dp.Name pushlog.id),
             Event.PushSuccess req sub dp pushlog.id] }
    | _, _ => Run.panic

/-- The function `pushBulk` (lines 237-256). `finish` tells whether the channel
given is non-nil. -/
def pushBulk {β δ : Type} (p : PushProcessor β δ) (w : World β δ) (req : Request)
    (service : String) (subscribers : List String) (finish : Bool) : Run (World β δ) :=
  let r := pushBulkLoop p req service subscribers 0 w []
  match pushBulkReport req service subscribers r.1 r.2 with
  | Run.ok w1 =>
    if finish then Run.ok { w1 with trace := w1.trace ++ [Event.FinishSend] } else Run.ok w1
  | Run.panic => Run.panic
  | Run.timeout => Run.timeout

/-! ## Process -/

/-- The slice expression `xs[lo:hi]`, with the length of the list as the bound
of `hi`; `none` is the panic. -/
def goSlice {α : Type} (xs : List α) (lo hi : Int) : Option (List α) :=
  if 0 ≤ lo ∧ lo ≤ hi ∧ hi ≤ xs.length then some ((xs.drop lo.toNat).take (hi - lo).toNat)
  else none

/-- A slice of the subscriber list handed to `pushBulk`: its bounds and its
elements. -/
structure Chunk where
  lo : Int
  hi : Int
  subscribers : List String
deriving DecidableEq, Repr

/-- The loop of lines 279-282, which spawns the workers: from position `pos`,
with `nr_goroutines` workers and the chunks `spawned` so far. The result is the
final `pos`, the final `nr_goroutines` and the chunks of the workers, in the
order in which they were spawned. The loop has no bound of its own: the model
stops with `Run.timeout` after `fuel` iterations. -/
def spawnLoop (subscribers : List String) (bound nr_subs_per_goroutine : Int) :
    Nat → Int → Int → List Chunk → Run (Int × Int × List Chunk)
  | 0, _, _, _ => Run.timeout
  | fuel + 1, pos, nr_goroutines, spawned =>
    if pos < bound then
      match goSlice subscribers pos (pos + nr_subs_per_goroutine) with
      | none => Run.panic
      | some c =>
        spawnLoop subscribers bound nr_subs_per_goroutine fuel (pos + nr_subs_per_goroutine)
          (nr_goroutines + 1) (spawned ++ [⟨pos, pos + nr_subs_per_goroutine, c⟩])
    else Run.ok (pos, nr_goroutines, spawned)

/-- The spawned workers, run one after the other in the order in which they
were spawned (one of the schedules of the goroutines). -/
def runWorkers {β δ : Type} (p : PushProcessor β δ) (req : Request) :
    List Chunk → World β δ → Run (World β δ)
  | [], w => Run.ok w
  | c :: cs, w =>
    match pushBulk p w req req.Service c.subscribers true with
    | Run.ok w1 => runWorkers p req cs w1
    | Run.panic => Run.panic
    | Run.timeout => Run.timeout

/-- The loop of lines 268-275 on the fast path: the log line and the event of
each success. `req.Subscribers[0]` panics on an empty list, and
`pushlog.dp.Name` when the device is `nil`. -/
def reportSingle {β δ : Type} (req : Request) :
    List (Option successPushLog) → World β δ → Run (World β δ)
  | [], w => Run.ok w
  | none :: rest, w => reportSingle req rest w
  | some pushlog :: rest, w =>
    match req.Subscribers[0]?, pushlog.dp with
    | some sub, some dp =>
      reportSingle req rest
        { w with trace := w.trace ++
            [Event.Log (LogLine.PushRequestSuccess req.Service sub dp.Name pushlog.id),
             Event.PushSuccess req sub dp pushlog.id] }
    | _, _ => Run.panic

/-- The condition of line 266, under which `Process` takes the fast path. -/
def fastPath (req : Request) : Bool :=
  decide (req.Subscribers.length = 1) && req.PushServiceProvider.isSome && req.DeliveryPoint.isSome

/-- The function `Process` (lines 258-290). The divisions of lines 259-260
panic on a zero divisor and truncate toward zero. The goroutines are run in
the order in which they are spawned, each to its end, before the synchronous
call of `pushBulk`; the final loop takes `nr_goroutines` values from
`finish`. -/
def Process {β δ : Type} (p : PushProcessor β δ) (fuel : Nat) (w : World β δ) (req : Request) :
    Run (World β δ) :=
  if p.max_nr_gorountines = 0 then Run.panic
  else
    let len : Int := req.Subscribers.length
    let nr_subs_per_goroutine := Int.tdiv len p.max_nr_gorountines
    let nr_subs_last_goroutine := Int.tmod len p.max_nr_gorountines
    let w0 : World β δ :=
      { w with trace := w.trace ++ [Event.Log (LogLine.Debug req.Service req.Subscribers)] }
    if fastPath req then
      match pushToSingleDeliveryPoint p w0 req with
      | Run.ok (dps, w1) => reportSingle req dps w1
      | Run.panic => Run.panic
      | Run.timeout => Run.timeout
    else
      match spawnLoop req.Subscribers (len - nr_subs_last_goroutine) nr_subs_per_goroutine
          fuel 0 0 [] with
      | Run.ok (pos, nr_goroutines, spawned) =>
        match runWorkers p req spawned w0 with
        | Run.ok w1 =>
          let r : Run (World β δ) :=
            if pos < len then
              match goSlice req.Subscribers pos len with
              | none => Run.panic
              | some c => pushBulk p w1 req req.Service c false
            else Run.ok w1
          match r with
          | Run.ok w2 =>
            Run.ok { w2 with trace := w2.trace ++
              (List.replicate nr_goroutines.toNat Event.FinishRecv) }
          | Run.panic => Run.panic
          | Run.timeout => Run.timeout
        | Run.panic => Run.panic
        | Run.timeout => Run.timeout
      | Run.panic => Run.panic
      | Run.timeout => Run.timeout

/-! ## Observations on traces -/

/-- Whether an effect is a lookup in the credential store. -/
def Event.isGetPairs : Event → Bool
  | Event.GetPairs _ _ => true
  | _ => false

/-- Whether an effect is an invocation of a delivery backend. -/
def Event.isPush : Event → Bool
  | Event.Push _ _ _ => true
  | _ => false

/-- Whether an effect is a submission to the retry scheduler. -/
def Event.isSubmit : Event → Bool
  | Event.Submit _ => true
  | _ => false

/-- Whether an effect is a failure event. -/
def Event.isPushFail : Event → Bool
  | Event.PushFail _ _ _ _ => true
  | _ => false

/-- Whether an effect is a success event. -/
def Event.isPushSuccess : Event → Bool
  | Event.PushSuccess _ _ _ _ => true
  | _ => false

/-- Whether an effect is a send on the completion channel. -/
def Event.isFinishSend : Event → Bool
  | Event.FinishSend => true
  | _ => false

/-- Whether an effect is a receive from the completion channel. -/
def Event.isFinishRecv : Event → Bool
  | Event.FinishRecv => true
  | _ => false

/-- The number of lookups in the credential store in a trace. -/
def resolutions (t : List Event) : Nat := t.countP Event.isGetPairs

/-- The number of invocations of a delivery backend in a trace. -/
def deliveries (t : List Event) : Nat := t.countP Event.isPush

/-- The number of failure events in a trace. -/
def failures (t : List Event) : Nat := t.countP Event.isPushFail

/-- Whether an effect is a failure event without a device, as `push` reports
for a lookup that gave an error. -/
def Event.isStoreFail : Event → Bool
  | Event.PushFail _ _ none _ => true
  | _ => false

/-- The number of failure events without a device in a trace. -/
def storeFailures (t : List Event) : Nat := t.countP Event.isStoreFail

/-- The tasks submitted to the retry scheduler in a trace, oldest first. -/
def submitted : List Event → List retryPushTask
  | [] => []
  | Event.Submit t :: es => t :: submitted es
  | _ :: es => submitted es

/-- Whether every task submitted in a trace carries a request whose retry count
is at most the maximum of the processor. -/
def capped {β δ : Type} (p : PushProcessor β δ) (t : List Event) : Prop :=
  ∀ task ∈ submitted t, task.req.nrRetries ≤ p.max_nr_retry

/-- The retry chain from the request `r0`: the world and the request after `k`
retries, each request being the one that `retryRequest` submits for the request
before it (the delay `retryAfter i` being the one asked for at the i-th retry);
`none` from the first retry on for which `retryRequest` submits nothing. -/
def retryChain {β δ : Type} (p : PushProcessor β δ) (retryAfter : Nat → Int)
    (subscriber : String) (psp : Option PushServiceProvider) (dp : Option DeliveryPoint)
    (w0 : World β δ) (r0 : Request) : Nat → Option (World β δ × Request)
  | 0 => some (w0, r0)
  | k + 1 =>
    match retryChain p retryAfter subscriber psp dp w0 r0 k with
    | none => none
    | some (w, r) =>
      let w1 := retryRequest p w r (retryAfter k) subscriber psp dp
      match (submitted w1.trace).drop (submitted w.trace).length with
      | [t] => some (w1, t.req)
      | _ => none

/-- Whether an effect is a lookup in the credential store or an operation on
the completion channel: the effects by which the calls of `push` and the
workers are counted. -/
def Event.isStructural : Event → Bool
  | Event.GetPairs _ _ => true
  | Event.FinishSend => true
  | Event.FinishRecv => true
  | _ => false

/-- The lookups and channel operations of a trace, in order. -/
def structural (t : List Event) : List Event := t.filter Event.isStructural

/-! ## The dispositions of a delivery attempt -/

/-- The world after the backend of a pair has been invoked for a request. -/
def invoked {β δ : Type} (p : PushProcessor β δ) (w : World β δ) (req : Request)
    (psp : PushServiceProvider) (dp : DeliveryPoint) : World β δ :=
  { w with backend := (p.pushers psp.serviceID w.backend psp (some dp) req.Notification).2,
           trace := w.trace ++ [Event.Push psp (some dp) req.Notification] }

/-- The world after the store updates of a refresh: the provider is written
back if there is one, then the device if there is one. -/
def refreshed {β δ : Type} (p : PushProcessor β δ) (w : World β δ)
    (rpsp : Option PushServiceProvider) (rdp : Option DeliveryPoint) : World β δ :=
  let w1 : World β δ :=
    match rpsp with
    | some x => { w with db := p.ModifyPushServiceProvider w.db x,
                         trace := w.trace ++ [Event.ModifyPushServiceProvider x] }
    | none => w
  match rdp with
  | some y => { w1 with db := p.ModifyDeliveryPoint w1.db y,
                        trace := w1.trace ++ [Event.ModifyDeliveryPoint y] }
  | none => w1

/-- The log lines deferred by a refresh, the latest first. -/
def refreshLog (service : String) (rpsp : Option PushServiceProvider)
    (rdp : Option DeliveryPoint) : List Event :=
  (match rdp with
   | some y => [Event.Log (LogLine.UpdateDeliveryPoint y.Name)]
   | none => []) ++
  (match rpsp with
   | some x => [Event.Log (LogLine.UpdatePushServiceProvider service x.Name)]
   | none => [])

/-- Whether an error has the retry shape. -/
def Error.isRetry : Error → Bool
  | Error.RetryError _ => true
  | _ => false

/-- Whether an error has the refresh shape. -/
def Error.isRefresh : Error → Bool
  | Error.RefreshDataError _ _ _ => true
  | _ => false

/-- The world in which `push` enters its loop over the pairs: after the lookup
and, if the lookup gave an error, after the report of that error (lines
179-183). -/
def lookedUp {β δ : Type} (p : PushProcessor β δ) (w : World β δ) (req : Request)
    (service subscriber : String) : World β δ :=
  { w with db := (p.GetPushServiceProviderDeliveryPointPairs w.db service subscriber).2,
           trace := w.trace ++ Event.GetPairs service subscriber ::
             (match (p.GetPushServiceProviderDeliveryPointPairs w.db service subscriber).1.2 with
              | some err =>
                [Event.Log (LogLine.PushFailDatabaseError service subscriber err),
                 Event.PushFail req subscriber none err]
              | none => []) }

/-- What it is for `push` to dispose of the attempt for a pair, which the store
returned after the pairs `pre` and before the pairs `post`, with the outcome
`out`, the world `after` and the deferred calls `D`. The outcome list of `push`
has `out` in the slot of the pair, after the slots of the pairs `pre` and
before one slot for each pair of `post`. The trace that `push` leaves is the
trace of `after`, then the effects of the attempts for the pairs `post`, among
them one backend invocation for each pair with a valid service type, and then,
run when `push` returns, the calls deferred by those attempts, the calls `D`
and the calls deferred by the attempts for the pairs `pre`. The slots, effects
and deferred calls for the pairs `post` are those of the loop over `post` from
the world `after`. -/
def disposes {β δ : Type} (p : PushProcessor β δ) (w : World β δ) (req : Request)
    (service subscriber : String) (subid : Nat)
    (pre post : List PushServiceProviderDeliveryPointPair) (out : Option successPushLog)
    (after : World β δ) (D : List Event) : Prop :=
  ∃ (outsPost : List (Option successPushLog)) (addedPost dPost : List Event),
    (push p w req service subscriber subid).1 =
      (pushLoop p req service subscriber subid pre
        (lookedUp p w req service subscriber) []).1 ++ out :: outsPost ∧
    outsPost.length = post.length ∧
    (push p w req service subscriber subid).2.trace =
      after.trace ++ addedPost ++
        (dPost ++ (D ++
          (pushLoop p req service subscriber subid pre
            (lookedUp p w req service subscriber) []).2.2)) ∧
    deliveries addedPost = post.countP (fun x => x.PushServiceProvider.validServiceType) ∧
    (pushLoop p req service subscriber subid post after
        (D ++ (pushLoop p req service subscriber subid pre
          (lookedUp p w req service subscriber) []).2.2)).1 = outsPost ∧
    (pushLoop p req service subscriber subid post after
        (D ++ (pushLoop p req service subscriber subid pre
          (lookedUp p w req service subscriber) []).2.2)).2.1.trace = after.trace ++ addedPost ∧
    (pushLoop p req service subscriber subid post after
        (D ++ (pushLoop p req service subscriber subid pre
          (lookedUp p w req service subscriber) []).2.2)).2.2 =
      dPost ++ (D ++ (pushLoop p req service subscriber subid pre
        (lookedUp p w req service subscriber) []).2.2)

/-- Whether the chunks tile the positions from `lo` to `hi` of the list: each
chunk is the slice of the list at its bounds, the first begins at `lo`, each
other begins where the one before it ends, and the last ends at `hi`. -/
def tiles (xs : List String) : Int → List Chunk → Int → Bool
  | lo, [], hi => decide (lo = hi)
  | lo, c :: cs, hi =>
    decide (c.lo = lo) && decide (goSlice xs c.lo c.hi = some c.subscribers) && tiles xs c.hi cs hi

/-- The first `k` chunks of `q` elements each of a list. -/
def evenChunks (xs : List String) (q k : Nat) : List Chunk :=
  (List.range' 0 k).map (fun i =>
    (⟨((i * q : Nat) : Int), ((i * q : Nat) : Int) + (q : Int), (xs.drop (i * q)).take q⟩ : Chunk))

/-- The number of workers that `Process` spawns for `n` subscribers and a
bound of `m` workers: `m` if each gets at least one subscriber, none
otherwise. -/
def workerCount (n m : Nat) : Nat := if n / m = 0 then 0 else m

/-! ## Concrete inputs -/

/-- A provider with a valid service type. -/
def sampleProvider : PushServiceProvider := ⟨"provider", true, 0⟩

/-- A device. -/
def sampleDevice : DeliveryPoint := ⟨"device"⟩

/-- A processor with the settings of `NewPushProcessor` (1024 workers, 3
retries), a clock that reads 1300000000 s, a store that resolves every subscriber to
the sample pair, and a backend that answers the message ID `m1`. -/
def sampleProcessor : PushProcessor Unit Unit :=
  { pushers := fun _ b _ _ _ => (("m1", none), b)
    GetPushServiceProviderDeliveryPointPairs := fun d _ _ =>
      (([⟨sampleProvider, sampleDevice⟩], none), d)
    ModifyPushServiceProvider := fun d _ => d
    ModifyDeliveryPoint := fun d _ => d
    Nanoseconds := fun _ => 1300000000000000000
    ACTION_PUSH := 1
    max_nr_gorountines := 1024
    max_nr_retry := 3 }

/-- The sample processor with a bound of two workers. -/
def twoWorkerProcessor : PushProcessor Unit Unit :=
  { sampleProcessor with max_nr_gorountines := 2 }

/-- A processor whose store answers every lookup with an error together with
the sample pair, and whose backend answers the message ID `m1`. -/
def faultyStoreProcessor : PushProcessor Unit Unit :=
  { sampleProcessor with
    GetPushServiceProviderDeliveryPointPairs := fun d _ _ =>
      (([⟨sampleProvider, sampleDevice⟩], some (Error.Other "store unreachable")), d) }

/-- A processor whose store answers every lookup with an error and no pair. -/
def failingStoreProcessor : PushProcessor Unit Unit :=
  { sampleProcessor with
    GetPushServiceProviderDeliveryPointPairs := fun d _ _ =>
      (([], some (Error.Other "store unreachable")), d) }

/-- A fresh request: retry count 0, backoff unset, no attached pair. -/
def sampleRequest (subscribers : List String) : Request :=
  { ID := "id", Action := 1, Service := "service", Subscribers := subscribers,
    PushServiceProvider := none, DeliveryPoint := none, Notification := some ⟨[("msg", "hi")]⟩,
    nrRetries := 0, backoffTime := 0, PreviousTry := none, timestamp := 0 }

/-- The sample processor with a backend that answers every delivery with an
error of no special shape. -/
def rejectingProcessor : PushProcessor Unit Unit :=
  { sampleProcessor with
    pushers := fun _ b _ _ _ => (("", some (Error.Other "rejected")), b) }

/-- A provider whose service type is not valid. -/
def invalidProvider : PushServiceProvider := ⟨"provider", false, 7⟩

/-- A request with one subscriber and an attached pair, the provider of which
has no valid service type. -/
def invalidProviderRequest : Request :=
  { sampleRequest ["a"] with
    PushServiceProvider := some invalidProvider, DeliveryPoint := some sampleDevice }

/-- The world before anything has happened. -/
def sampleWorld : World Unit Unit := ⟨(), (), 0, []⟩

/-! ## Theorems: machine integers and traces -/

theorem wrap64_of_range (x : Int) (h1 : -2 ^ 63 ≤ x) (h2 : x < 2 ^ 63) : wrap64 x = x := by
  unfold wrap64
  omega

theorem submitted_append (a b : List Event) : submitted (a ++ b) = submitted a ++ submitted b := by
  induction a with
  | nil => rfl
  | cons e es ih => cases e <;> simp [submitted, ih]

/-! ## Theorems: retryRequest -/

theorem retryRequest_of_le {β δ : Type} (p : PushProcessor β δ) (w : World β δ) (req : Request)
    (retryAfter : Int) (subscriber : String) (psp : Option PushServiceProvider)
    (dp : Option DeliveryPoint) (h : p.max_nr_retry ≤ req.nrRetries) :
    retryRequest p w req retryAfter subscriber psp dp = w := by
  unfold retryRequest
  rw [if_pos (ge_iff_le.mpr h)]

theorem retryRequest_of_lt {β δ : Type} (p : PushProcessor β δ) (w : World β δ) (req : Request)
    (retryAfter : Int) (subscriber : String) (psp : Option PushServiceProvider)
    (dp : Option DeliveryPoint) (h : req.nrRetries < p.max_nr_retry) :
    ∃ t : retryPushTask,
      retryRequest p w req retryAfter subscriber psp dp =
        { w with ticks := w.ticks + 2, trace := w.trace ++ [Event.Submit t] } ∧
      t.req.nrRetries = req.nrRetries + 1 ∧
      t.req.PreviousTry = some req ∧
      t.req.ID = req.ID ∧
      t.req.Service = req.Service ∧
      t.req.Subscribers = [subscriber] ∧
      t.req.PushServiceProvider = psp ∧
      t.req.DeliveryPoint = dp ∧
      t.req.backoffTime =
        (if req.nrRetries = 0 ∨ req.backoffTime = 0 then init_backoff_time
         else wrap64 (req.backoffTime * 2)) ∧
      t.execTime =
        (if wrap64 (p.Nanoseconds (w.ticks + 1) + t.req.backoffTime) <
            wrap64 (wrap64 retryAfter * 1000000000)
         then wrap64 (wrap64 retryAfter * 1000000000)
         else wrap64 (p.Nanoseconds (w.ticks + 1) + t.req.backoffTime)) := by
  unfold retryRequest
  rw [if_neg (not_le.mpr h)]
  exact ⟨_, rfl, rfl, rfl, rfl, rfl, rfl, rfl, rfl, rfl, rfl⟩

theorem retryChain_step {β δ : Type} (p : PushProcessor β δ) (retryAfter : Nat → Int)
    (subscriber : String) (psp : Option PushServiceProvider) (dp : Option DeliveryPoint)
    (w0 : World β δ) (r0 : Request) (k : Nat) (w : World β δ) (r : Request)
    (hc : retryChain p retryAfter subscriber psp dp w0 r0 k = some (w, r))
    (h : r.nrRetries < p.max_nr_retry) :
    ∃ w1 r1, retryChain p retryAfter subscriber psp dp w0 r0 (k + 1) = some (w1, r1) ∧
      r1.nrRetries = r.nrRetries + 1 ∧
      r1.backoffTime =
        (if r.nrRetries = 0 ∨ r.backoffTime = 0 then init_backoff_time
         else wrap64 (r.backoffTime * 2)) := by
  obtain ⟨t, ht, hn, -, -, -, -, -, -, hb, -⟩ :=
    retryRequest_of_lt p w r (retryAfter k) subscriber psp dp h
  refine ⟨retryRequest p w r (retryAfter k) subscriber psp dp, t.req, ?_, hn, hb⟩
  simp only [retryChain, hc, ht, submitted_append, List.drop_left, submitted]

theorem retryChain_stop {β δ : Type} (p : PushProcessor β δ) (retryAfter : Nat → Int)
    (subscriber : String) (psp : Option PushServiceProvider) (dp : Option DeliveryPoint)
    (w0 : World β δ) (r0 : Request) (k : Nat) (w : World β δ) (r : Request)
    (hc : retryChain p retryAfter subscriber psp dp w0 r0 k = some (w, r))
    (h : p.max_nr_retry ≤ r.nrRetries) :
    retryChain p retryAfter subscriber psp dp w0 r0 (k + 1) = none := by
  simp only [retryChain, hc, retryRequest_of_le p w r (retryAfter k) subscriber psp dp h,
    List.drop_length]

theorem retryChain_count {β δ : Type} (p : PushProcessor β δ) (retryAfter : Nat → Int)
    (subscriber : String) (psp : Option PushServiceProvider) (dp : Option DeliveryPoint)
    (w0 : World β δ) (r0 : Request) (h0 : r0.nrRetries = 0) (k : Nat)
    (hk : (k : Int) ≤ p.max_nr_retry) :
    ∃ wk rk, retryChain p retryAfter subscriber psp dp w0 r0 k = some (wk, rk) ∧
      rk.nrRetries = k := by
  induction k with
  | zero => exact ⟨w0, r0, rfl, by simpa using h0⟩
  | succ k ih =>
    obtain ⟨wk, rk, hc, hn⟩ := ih (by push_cast at hk; omega)
    obtain ⟨w1, r1, hc1, hn1, -⟩ :=
      retryChain_step p retryAfter subscriber psp dp w0 r0 k wk rk hc (by push_cast at hk; omega)
    exact ⟨w1, r1, hc1, by rw [hn1, hn]; push_cast; ring⟩

theorem retryChain_backoff {β δ : Type} (p : PushProcessor β δ) (retryAfter : Nat → Int)
    (subscriber : String) (psp : Option PushServiceProvider) (dp : Option DeliveryPoint)
    (w0 : World β δ) (r0 : Request) (h0 : r0.nrRetries = 0) (j : Nat)
    (hj : ((j + 1 : Nat) : Int) ≤ p.max_nr_retry) (hfit : init_backoff_time * 2 ^ j < 2 ^ 63) :
    ∃ wk rk, retryChain p retryAfter subscriber psp dp w0 r0 (j + 1) = some (wk, rk) ∧
      rk.nrRetries = ((j + 1 : Nat) : Int) ∧ rk.backoffTime = init_backoff_time * 2 ^ j := by
  induction j with
  | zero =>
    obtain ⟨w1, r1, hc1, hn1, hb1⟩ :=
      retryChain_step p retryAfter subscriber psp dp w0 r0 0 w0 r0 rfl (by rw [h0]; omega)
    refine ⟨w1, r1, hc1, by rw [hn1, h0]; rfl, ?_⟩
    rw [hb1, if_pos (Or.inl h0)]
    simp
  | succ j ih =>
    have hpos : (0 : Int) < init_backoff_time * 2 ^ j := by
      unfold init_backoff_time
      positivity
    have hlt : init_backoff_time * 2 ^ j < 2 ^ 63 := by
      have : init_backoff_time * 2 ^ (j + 1) = init_backoff_time * 2 ^ j * 2 := by ring
      omega
    obtain ⟨wk, rk, hc, hn, hb⟩ := ih (by push_cast at hj ⊢; omega) hlt
    obtain ⟨w1, r1, hc1, hn1, hb1⟩ :=
      retryChain_step p retryAfter subscriber psp dp w0 r0 (j + 1) wk rk hc
        (by rw [hn]; push_cast at hj ⊢; omega)
    refine ⟨w1, r1, hc1, by rw [hn1, hn]; push_cast; ring, ?_⟩
    have hne : ¬ (rk.nrRetries = 0 ∨ rk.backoffTime = 0) := by
      rw [hn, hb]
      push_cast
      omega
    rw [hb1, if_neg hne, hb]
    have hdouble : init_backoff_time * 2 ^ (j + 1) = init_backoff_time * 2 ^ j * 2 := by ring
    rw [hdouble] at hfit ⊢
    exact wrap64_of_range _ (by omega) hfit

theorem retryRequest_execTime {β δ : Type} (p : PushProcessor β δ) (w : World β δ) (req : Request)
    (retryAfter : Int) (subscriber : String) (psp : Option PushServiceProvider)
    (dp : Option DeliveryPoint) (h : req.nrRetries < p.max_nr_retry)
    (hra : 0 ≤ retryAfter) (hra2 : retryAfter < 2 ^ 31)
    (hnow : 0 ≤ p.Nanoseconds (w.ticks + 1)) (hnow2 : p.Nanoseconds (w.ticks + 1) < 2 ^ 62)
    (hb : 0 ≤ req.backoffTime) (hb2 : req.backoffTime < 2 ^ 61) :
    ∃ t : retryPushTask,
      (retryRequest p w req retryAfter subscriber psp dp).trace = w.trace ++ [Event.Submit t] ∧
      t.execTime =
        max (p.Nanoseconds (w.ticks + 1) + t.req.backoffTime) (retryAfter * 1000000000) := by
  obtain ⟨t, ht, -, -, -, -, -, -, -, hbo, he⟩ :=
    retryRequest_of_lt p w req retryAfter subscriber psp dp h
  refine ⟨t, by rw [ht], ?_⟩
  have hbt : 0 ≤ t.req.backoffTime ∧ t.req.backoffTime < 2 ^ 62 := by
    rw [hbo]
    split
    · unfold init_backoff_time
      omega
    · rw [wrap64_of_range _ (by omega) (by omega)]
      omega
  rw [he, wrap64_of_range retryAfter (by omega) (by omega),
    wrap64_of_range (retryAfter * 1000000000) (by omega) (by omega),
    wrap64_of_range (p.Nanoseconds (w.ticks + 1) + t.req.backoffTime) (by omega) (by omega)]
  split
  · rw [max_eq_right (by omega)]
  · rw [max_eq_left (by omega)]

/-! ## Theorems: the claims on retryRequest -/

/-- C1: at a clock reading of 1300000000 s, for a fresh request and a requested
delay of 10 s, the task that `retryRequest` submits has the execution time
1300000003 s (the clock reading plus the backoff of 3 s), not 1300000010 s, the
later of `now + backoff` and `now + retryAfterSeconds`: the code compares
`now + backoff` with the requested delay itself, not with `now` plus that
delay. -/
theorem retryRequest_execTime_ignores_now_in_floor :
    (submitted (retryRequest sampleProcessor sampleWorld (sampleRequest ["a"]) 10 "a"
        (some sampleProvider) (some sampleDevice)).trace).map retryPushTask.execTime
      = [1300000003000000000] ∧
    max (sampleProcessor.Nanoseconds 1 + init_backoff_time)
        (sampleProcessor.Nanoseconds 1 + 10 * 1000000000) = 1300000010000000000 := by
  constructor
  · rfl
  · decide

/-- C3: in a retry chain from a fresh request (retry count 0), the request of
the k-th retry exists and has the backoff `init_backoff_time * 2 ^ (k - 1)`,
for every k from 1 up to the maximum number of retries, provided that value is
below 2 ^ 63. -/
theorem retryChain_backoff_doubles {β δ : Type} (p : PushProcessor β δ) (delays : Nat → Int)
    (subscriber : String) (psp : Option PushServiceProvider) (dp : Option DeliveryPoint)
    (w0 : World β δ) (r0 : Request) (h0 : r0.nrRetries = 0) (k : Nat) (hk1 : 1 ≤ k)
    (hk : (k : Int) ≤ p.max_nr_retry) (hfit : init_backoff_time * 2 ^ (k - 1) < 2 ^ 63) :
    ∃ wk rk, retryChain p delays subscriber psp dp w0 r0 k = some (wk, rk) ∧
      rk.backoffTime = init_backoff_time * 2 ^ (k - 1) := by
  obtain ⟨j, rfl⟩ : ∃ j, k = j + 1 := ⟨k - 1, by omega⟩
  simp only [Nat.add_sub_cancel] at hfit ⊢
  obtain ⟨wk, rk, hc, -, hb⟩ :=
    retryChain_backoff p delays subscriber psp dp w0 r0 h0 j hk hfit
  exact ⟨wk, rk, hc, hb⟩

theorem retryChain_backoff_doubles_witness :
    ∃ wk rk, retryChain sampleProcessor (fun _ => 0) "a" none none sampleWorld
        (sampleRequest ["a"]) 3 = some (wk, rk) ∧
      rk.backoffTime = init_backoff_time * 2 ^ (3 - 1) :=
  retryChain_backoff_doubles sampleProcessor (fun _ => 0) "a" none none sampleWorld
    (sampleRequest ["a"]) rfl 3 (by decide) (by decide) (by decide)

/-- C4: for a request with a retry count below the maximum, `retryRequest`
submits one task, whose request has the retry count of the original plus one,
the original as its back-link, the ID and the service of the original, the one
given subscriber as its subscriber list, and the given provider and device;
when both of these are non-nil the request meets the condition of the fast path
of `Process`. -/
theorem retryRequest_builds_single_subscriber_request {β δ : Type} (p : PushProcessor β δ)
    (w : World β δ) (req : Request) (retryAfter : Int) (subscriber : String)
    (psp : Option PushServiceProvider) (dp : Option DeliveryPoint)
    (h : req.nrRetries < p.max_nr_retry) :
    ∃ t : retryPushTask,
      (retryRequest p w req retryAfter subscriber psp dp).trace = w.trace ++ [Event.Submit t] ∧
      t.req.nrRetries = req.nrRetries + 1 ∧
      t.req.PreviousTry = some req ∧
      t.req.ID = req.ID ∧
      t.req.Service = req.Service ∧
      t.req.Subscribers = [subscriber] ∧
      t.req.PushServiceProvider = psp ∧
      t.req.DeliveryPoint = dp ∧
      (psp.isSome = true → dp.isSome = true → fastPath t.req = true) := by
  obtain ⟨t, ht, hn, hp, hi, hs, hsub, hpsp, hdp, -, -⟩ :=
    retryRequest_of_lt p w req retryAfter subscriber psp dp h
  refine ⟨t, by rw [ht], hn, hp, hi, hs, hsub, hpsp, hdp, ?_⟩
  intro h1 h2
  simp [fastPath, hsub, hpsp, hdp, h1, h2]

theorem retryRequest_builds_single_subscriber_request_witness :
    ∃ t : retryPushTask,
      (retryRequest sampleProcessor sampleWorld (sampleRequest ["a", "b"]) 10 "b"
        (some sampleProvider) (some sampleDevice)).trace = sampleWorld.trace ++ [Event.Submit t] ∧
      t.req.nrRetries = (sampleRequest ["a", "b"]).nrRetries + 1 ∧
      t.req.PreviousTry = some (sampleRequest ["a", "b"]) ∧
      t.req.ID = (sampleRequest ["a", "b"]).ID ∧
      t.req.Service = (sampleRequest ["a", "b"]).Service ∧
      t.req.Subscribers = ["b"] ∧
      t.req.PushServiceProvider = some sampleProvider ∧
      t.req.DeliveryPoint = some sampleDevice ∧
      ((some sampleProvider).isSome = true → (some sampleDevice).isSome = true →
        fastPath t.req = true) :=
  retryRequest_builds_single_subscriber_request sampleProcessor sampleWorld
    (sampleRequest ["a", "b"]) 10 "b" (some sampleProvider) (some sampleDevice) (by decide)

/-! ## Theorems: the chunks of Process -/

theorem goSlice_cast {α : Type} (xs : List α) (a b : Nat) (hab : a ≤ b) (hb : b ≤ xs.length) :
    goSlice xs (a : Int) (b : Int) = some ((xs.drop a).take (b - a)) := by
  unfold goSlice
  have h : (0 : Int) ≤ a ∧ (a : Int) ≤ b ∧ (b : Int) ≤ xs.length := by omega
  rw [if_pos h]
  have h2 : ((b : Int) - (a : Int)).toNat = b - a := by omega
  rw [h2, Int.toNat_ofNat]

theorem spawnLoop_run (subscribers : List String) (q : Nat) (hq : 0 < q) (bound step : Int)
    (hstep : step = q) :
    ∀ (r fuel a : Nat) (pos nr : Int) (acc : List Chunk), r < fuel → pos = ((a * q : Nat) : Int) →
      bound = (((a + r) * q : Nat) : Int) → (a + r) * q ≤ subscribers.length →
      spawnLoop subscribers bound step fuel pos nr acc =
        Run.ok (bound, nr + r, acc ++ (List.range' a r).map (fun i =>
          (⟨((i * q : Nat) : Int), ((i * q : Nat) : Int) + q,
            (subscribers.drop (i * q)).take q⟩ : Chunk))) := by
  intro r
  induction r with
  | zero =>
    intro fuel a pos nr acc hf hpos hbound _
    obtain ⟨f, rfl⟩ : ∃ f, fuel = f + 1 := ⟨fuel - 1, by omega⟩
    have : ¬ pos < bound := by rw [hpos, hbound]; simp
    simp [spawnLoop, this, hpos, hbound]
  | succ r ih =>
    intro fuel a pos nr acc hf hpos hbound hlen
    obtain ⟨f, rfl⟩ : ∃ f, fuel = f + 1 := ⟨fuel - 1, by omega⟩
    have hlt : pos < bound := by
      rw [hpos, hbound]
      have : a * q < (a + (r + 1)) * q := Nat.mul_lt_mul_of_pos_right (by omega) hq
      exact_mod_cast this
    have hle : (a + 1) * q ≤ subscribers.length :=
      le_trans (Nat.mul_le_mul_right q (by omega)) hlen
    have hpos2 : pos + step = (((a + 1) * q : Nat) : Int) := by
      rw [hpos, hstep]; push_cast; ring
    have hsl : goSlice subscribers pos (pos + step) = some ((subscribers.drop (a * q)).take q) := by
      rw [hpos2, hpos, goSlice_cast subscribers (a * q) ((a + 1) * q)
        (Nat.mul_le_mul_right q (by omega)) hle]
      congr 2
      rw [Nat.add_mul, Nat.one_mul, Nat.add_sub_cancel_left]
    have hnext := ih f (a + 1) (pos + step) (nr + 1)
      (acc ++ [⟨pos, pos + step, (subscribers.drop (a * q)).take q⟩]) (by omega) hpos2
      (by rw [hbound]; congr 2; omega) (by rw [show a + 1 + r = a + (r + 1) by omega]; exact hlen)
    simp only [spawnLoop, if_pos hlt, hsl, hnext, List.range'_succ, List.map_cons,
      List.append_assoc, List.singleton_append]
    rw [hpos, hstep]
    congr 3
    push_cast
    ring

/-! ## Theorems: the dispositions of push -/

theorem pushBody_invalid {β δ : Type} (p : PushProcessor β δ) (req : Request)
    (service subscriber : String) (subid : Nat) (psp : PushServiceProvider) (dp : DeliveryPoint)
    (w : World β δ) (defers : List Event) (hv : psp.validServiceType = false) :
    pushBody p req service subscriber subid ⟨psp, dp⟩ w defers = (none, w, defers) := by
  simp [pushBody, hv]

theorem pushBody_success {β δ : Type} (p : PushProcessor β δ) (req : Request)
    (service subscriber : String) (subid : Nat) (psp : PushServiceProvider) (dp : DeliveryPoint)
    (w : World β δ) (defers : List Event) (hv : psp.validServiceType = true)
    (hr : (p.pushers psp.serviceID w.backend psp (some dp) req.Notification).1.2 = none) :
    pushBody p req service subscriber subid ⟨psp, dp⟩ w defers =
      (some ⟨some dp, subid, (p.pushers psp.serviceID w.backend psp (some dp) req.Notification).1.1⟩,
        invoked p w req psp dp, defers) := by
  simp [pushBody, hv, hr, invoked]

theorem pushBody_refresh_success {β δ : Type} (p : PushProcessor β δ) (req : Request)
    (service subscriber : String) (subid : Nat) (psp : PushServiceProvider) (dp : DeliveryPoint)
    (w : World β δ) (defers : List Event) (hv : psp.validServiceType = true)
    (rpsp : Option PushServiceProvider) (rdp : Option DeliveryPoint)
    (hr : (p.pushers psp.serviceID w.backend psp (some dp) req.Notification).1.2 =
      some (Error.RefreshDataError rpsp rdp none)) :
    pushBody p req service subscriber subid ⟨psp, dp⟩ w defers =
      (some ⟨some dp, subid, (p.pushers psp.serviceID w.backend psp (some dp) req.Notification).1.1⟩,
        refreshed p (invoked p w req psp dp) rpsp rdp, refreshLog service rpsp rdp ++ defers) := by
  cases rpsp <;> cases rdp <;> simp [pushBody, hv, hr, invoked, refreshed, refreshLog]

theorem pushBody_retry {β δ : Type} (p : PushProcessor β δ) (req : Request)
    (service subscriber : String) (subid : Nat) (psp : PushServiceProvider) (dp : DeliveryPoint)
    (w : World β δ) (defers : List Event) (hv : psp.validServiceType = true) (retryAfter : Int)
    (hr : (p.pushers psp.serviceID w.backend psp (some dp) req.Notification).1.2 =
      some (Error.RetryError retryAfter)) :
    pushBody p req service subscriber subid ⟨psp, dp⟩ w defers =
      (none, retryRequest p (invoked p w req psp dp) req retryAfter subscriber (some psp) (some dp),
        Event.Log (LogLine.PushRetry service subscriber dp.Name (Error.RetryError retryAfter))
          :: defers) := by
  simp [pushBody, hv, hr, invoked]

theorem pushBody_refresh_retry {β δ : Type} (p : PushProcessor β δ) (req : Request)
    (service subscriber : String) (subid : Nat) (psp : PushServiceProvider) (dp : DeliveryPoint)
    (w : World β δ) (defers : List Event) (hv : psp.validServiceType = true)
    (rpsp : Option PushServiceProvider) (rdp : Option DeliveryPoint) (retryAfter : Int)
    (hr : (p.pushers psp.serviceID w.backend psp (some dp) req.Notification).1.2 =
      some (Error.RefreshDataError rpsp rdp (some (Error.RetryError retryAfter)))) :
    pushBody p req service subscriber subid ⟨psp, dp⟩ w defers =
      (none,
        retryRequest p (refreshed p (invoked p w req psp dp) rpsp rdp) req retryAfter subscriber
          (some psp) (some dp),
        Event.Log (LogLine.PushRetry service subscriber dp.Name (Error.RetryError retryAfter))
          :: (refreshLog service rpsp rdp ++ defers)) := by
  cases rpsp <;> cases rdp <;> simp [pushBody, hv, hr, invoked, refreshed, refreshLog]

theorem pushBody_other {β δ : Type} (p : PushProcessor β δ) (req : Request)
    (service subscriber : String) (subid : Nat) (psp : PushServiceProvider) (dp : DeliveryPoint)
    (w : World β δ) (defers : List Event) (hv : psp.validServiceType = true) (e : Error)
    (h1 : e.isRetry = false) (h2 : e.isRefresh = false)
    (hr : (p.pushers psp.serviceID w.backend psp (some dp) req.Notification).1.2 = some e) :
    pushBody p req service subscriber subid ⟨psp, dp⟩ w defers =
      (none, invoked p w req psp dp,
        Event.PushFail req subscriber (some dp) e ::
          Event.Log (LogLine.PushFail service subscriber dp.Name e) :: defers) := by
  cases e with
  | RefreshDataError a b c => simp [Error.isRefresh] at h2
  | RetryError n => simp [Error.isRetry] at h1
  | Other m => simp [pushBody, hv, hr, invoked]

theorem pushBody_refresh_other {β δ : Type} (p : PushProcessor β δ) (req : Request)
    (service subscriber : String) (subid : Nat) (psp : PushServiceProvider) (dp : DeliveryPoint)
    (w : World β δ) (defers : List Event) (hv : psp.validServiceType = true)
    (rpsp : Option PushServiceProvider) (rdp : Option DeliveryPoint) (e : Error)
    (h1 : e.isRetry = false)
    (hr : (p.pushers psp.serviceID w.backend psp (some dp) req.Notification).1.2 =
      some (Error.RefreshDataError rpsp rdp (some e))) :
    pushBody p req service subscriber subid ⟨psp, dp⟩ w defers =
      (none, refreshed p (invoked p w req psp dp) rpsp rdp,
        Event.PushFail req subscriber (some dp) e ::
          Event.Log (LogLine.PushFail service subscriber dp.Name e) ::
            (refreshLog service rpsp rdp ++ defers)) := by
  cases e with
  | RetryError n => simp [Error.isRetry] at h1
  | RefreshDataError a b c =>
    cases rpsp <;> cases rdp <;> simp [pushBody, hv, hr, invoked, refreshed, refreshLog]
  | Other m =>
    cases rpsp <;> cases rdp <;> simp [pushBody, hv, hr, invoked, refreshed, refreshLog]

theorem refreshed_none {β δ : Type} (p : PushProcessor β δ) (w : World β δ) :
    refreshed p w none none = w := rfl

theorem pushBody_shape {β δ : Type} (p : PushProcessor β δ) (req : Request)
    (service subscriber : String) (subid : Nat) (psp : PushServiceProvider) (dp : DeliveryPoint)
    (b : β) :
    (psp.validServiceType = false ∧
      ∀ (w : World β δ) (defers : List Event),
        pushBody p req service subscriber subid ⟨psp, dp⟩ w defers = (none, w, defers)) ∨
    (psp.validServiceType = true ∧
      ∃ (out : Option successPushLog) (rpsp : Option PushServiceProvider)
        (rdp : Option DeliveryPoint) (retry : Option Int) (d : List Event),
        (∀ (w : World β δ) (defers : List Event), w.backend = b →
          pushBody p req service subscriber subid ⟨psp, dp⟩ w defers =
            (out,
             (match retry with
              | some n =>
                retryRequest p (refreshed p (invoked p w req psp dp) rpsp rdp) req n subscriber
                  (some psp) (some dp)
              | none => refreshed p (invoked p w req psp dp) rpsp rdp),
             d ++ defers)) ∧
        (∀ l, out = some l → l.subid = subid ∧ l.dp = some dp) ∧
        (∀ e ∈ d, e.isStructural = false ∧ e.isPush = false ∧ e.isSubmit = false ∧
          e.isStoreFail = false)) := by
  cases hv : psp.validServiceType with
  | false =>
    exact Or.inl ⟨rfl, fun w defers =>
      pushBody_invalid p req service subscriber subid psp dp w defers hv⟩
  | true =>
    refine Or.inr ⟨rfl, ?_⟩
    cases hr : (p.pushers psp.serviceID b psp (some dp) req.Notification).1.2 with
    | none =>
      refine ⟨(some ⟨some dp, subid, (p.pushers psp.serviceID b psp (some dp) req.Notification).1.1⟩),
        none, none, none, [], ?_, ?_, by simp⟩
      · intro w defers hb
        subst hb
        rw [pushBody_success p req service subscriber subid psp dp w defers hv hr]
        rfl
      · intro l hl
        cases hl
        exact ⟨rfl, rfl⟩
    | some err =>
      cases err with
      | RetryError n =>
        refine ⟨none, none, none, some n,
          [Event.Log (LogLine.PushRetry service subscriber dp.Name (Error.RetryError n))],
          ?_, by simp, by simp [Event.isStructural, Event.isPush, Event.isSubmit, Event.isStoreFail]⟩
        intro w defers hb
        subst hb
        rw [pushBody_retry p req service subscriber subid psp dp w defers hv n hr]
        rfl
      | Other m =>
        refine ⟨none, none, none, none,
          [Event.PushFail req subscriber (some dp) (Error.Other m),
           Event.Log (LogLine.PushFail service subscriber dp.Name (Error.Other m))],
          ?_, by simp, by simp [Event.isStructural, Event.isPush, Event.isSubmit, Event.isStoreFail]⟩
        intro w defers hb
        subst hb
        rw [pushBody_other p req service subscriber subid psp dp w defers hv (Error.Other m)
          rfl rfl hr]
        rfl
      | RefreshDataError rpsp rdp other =>
        have hlog : ∀ e ∈ refreshLog service rpsp rdp,
            e.isStructural = false ∧ e.isPush = false ∧ e.isSubmit = false ∧
              e.isStoreFail = false := by
          cases rpsp <;> cases rdp <;>
            simp [refreshLog, Event.isStructural, Event.isPush, Event.isSubmit, Event.isStoreFail]
        cases other with
        | none =>
          refine ⟨(some ⟨some dp, subid, (p.pushers psp.serviceID b psp (some dp) req.Notification).1.1⟩),
            rpsp, rdp, none, refreshLog service rpsp rdp, ?_, ?_, hlog⟩
          · intro w defers hb
            subst hb
            rw [pushBody_refresh_success p req service subscriber subid psp dp w defers hv
              rpsp rdp hr]
          · intro l hl
            cases hl
            exact ⟨rfl, rfl⟩
        | some e =>
          cases hret : e.isRetry with
          | true =>
            cases e with
            | RetryError n =>
              refine ⟨none, rpsp, rdp, some n,
                Event.Log (LogLine.PushRetry service subscriber dp.Name (Error.RetryError n))
                  :: refreshLog service rpsp rdp, ?_, by simp, ?_⟩
              · intro w defers hb
                subst hb
                rw [pushBody_refresh_retry p req service subscriber subid psp dp w defers hv
                  rpsp rdp n hr]
                rfl
              · intro e he
                rcases List.mem_cons.mp he with rfl | he
                · simp [Event.isStructural, Event.isPush, Event.isSubmit, Event.isStoreFail]
                · exact hlog e he
            | RefreshDataError a b c => simp [Error.isRetry] at hret
            | Other m => simp [Error.isRetry] at hret
          | false =>
            refine ⟨none, rpsp, rdp, none,
              Event.PushFail req subscriber (some dp) e ::
                Event.Log (LogLine.PushFail service subscriber dp.Name e) ::
                  refreshLog service rpsp rdp, ?_, by simp, ?_⟩
            · intro w defers hb
              subst hb
              rw [pushBody_refresh_other p req service subscriber subid psp dp w defers hv
                rpsp rdp e hret hr]
              rfl
            · intro e he
              rcases List.mem_cons.mp he with rfl | he
              · simp [Event.isStructural, Event.isPush, Event.isSubmit, Event.isStoreFail]
              rcases List.mem_cons.mp he with rfl | he
              · simp [Event.isStructural, Event.isPush, Event.isSubmit, Event.isStoreFail]
              · exact hlog e he

/-! ## Theorems: the lookups and channel operations of a run -/

theorem structural_append (a b : List Event) :
    structural (a ++ b) = structural a ++ structural b := by
  simp [structural]

theorem deliveries_append (a b : List Event) :
    deliveries (a ++ b) = deliveries a + deliveries b := by
  simp [deliveries]

theorem structural_eq_nil (d : List Event) (h : ∀ e ∈ d, e.isStructural = false) :
    structural d = [] := by
  unfold structural
  rw [List.filter_eq_nil_iff]
  intro e he
  simp [h e he]

theorem deliveries_eq_zero (d : List Event) (h : ∀ e ∈ d, e.isPush = false) :
    deliveries d = 0 := by
  unfold deliveries
  rw [List.countP_eq_zero]
  intro e he
  simp [h e he]

theorem retryRequest_trace {β δ : Type} (p : PushProcessor β δ) (w : World β δ)
    (req : Request) (retryAfter : Int) (subscriber : String) (psp : Option PushServiceProvider)
    (dp : Option DeliveryPoint) :
    ∃ added, (retryRequest p w req retryAfter subscriber psp dp).trace = w.trace ++ added ∧
      structural added = [] ∧ deliveries added = 0 := by
  by_cases h : req.nrRetries < p.max_nr_retry
  · obtain ⟨t, ht, -⟩ := retryRequest_of_lt p w req retryAfter subscriber psp dp h
    exact ⟨[Event.Submit t], by rw [ht], rfl, rfl⟩
  · rw [retryRequest_of_le p w req retryAfter subscriber psp dp (not_lt.mp h)]
    exact ⟨[], by simp, rfl, rfl⟩

theorem refreshed_trace {β δ : Type} (p : PushProcessor β δ) (w : World β δ)
    (rpsp : Option PushServiceProvider) (rdp : Option DeliveryPoint) :
    ∃ added, (refreshed p w rpsp rdp).trace = w.trace ++ added ∧
      structural added = [] ∧ deliveries added = 0 := by
  cases rpsp with
  | none =>
    cases rdp with
    | none => exact ⟨[], by simp [refreshed], rfl, rfl⟩
    | some y => exact ⟨[Event.ModifyDeliveryPoint y], by simp [refreshed], rfl, rfl⟩
  | some x =>
    cases rdp with
    | none => exact ⟨[Event.ModifyPushServiceProvider x], by simp [refreshed], rfl, rfl⟩
    | some y =>
      exact ⟨[Event.ModifyPushServiceProvider x, Event.ModifyDeliveryPoint y],
        by simp [refreshed], rfl, rfl⟩

theorem pushBody_trace {β δ : Type} (p : PushProcessor β δ) (req : Request)
    (service subscriber : String) (subid : Nat) (pdpair : PushServiceProviderDeliveryPointPair)
    (w : World β δ) (defers : List Event) :
    ∃ added d,
      (pushBody p req service subscriber subid pdpair w defers).2.1.trace = w.trace ++ added ∧
      (pushBody p req service subscriber subid pdpair w defers).2.2 = d ++ defers ∧
      structural added = [] ∧ structural d = [] ∧
      deliveries added = (if pdpair.PushServiceProvider.validServiceType then 1 else 0) ∧
      deliveries d = 0 ∧
      (∀ l, (pushBody p req service subscriber subid pdpair w defers).1 = some l →
        l.subid = subid ∧ l.dp.isSome = true) := by
  obtain ⟨psp, dp⟩ := pdpair
  rcases pushBody_shape p req service subscriber subid psp dp w.backend with
    ⟨hv, h⟩ | ⟨hv, out, rpsp, rdp, retry, d, h, hout, hd⟩
  · rw [h w defers]
    exact ⟨[], [], by simp, by simp, rfl, rfl, by simp [hv, deliveries], rfl, by simp⟩
  · rw [h w defers rfl]
    obtain ⟨a1, ha1, hs1, hd1⟩ := refreshed_trace p (invoked p w req psp dp) rpsp rdp
    have hsd : structural d = [] := structural_eq_nil d (fun e he => (hd e he).1)
    have hdd : deliveries d = 0 := deliveries_eq_zero d (fun e he => (hd e he).2.1)
    cases retry with
    | none =>
      refine ⟨Event.Push psp (some dp) req.Notification :: a1, d, ?_, rfl, ?_, hsd, ?_, hdd,
        fun l hl => ⟨(hout l hl).1, by rw [(hout l hl).2]; rfl⟩⟩
      · show (refreshed p (invoked p w req psp dp) rpsp rdp).trace = _
        rw [ha1]
        simp [invoked]
      · rw [← List.singleton_append, structural_append, hs1]
        rfl
      · rw [← List.singleton_append, deliveries_append, hd1]
        simp [hv, deliveries, Event.isPush]
    | some n =>
      obtain ⟨a2, ha2, hs2, hd2⟩ :=
        retryRequest_trace p (refreshed p (invoked p w req psp dp) rpsp rdp) req n subscriber
          (some psp) (some dp)
      refine ⟨Event.Push psp (some dp) req.Notification :: (a1 ++ a2), d, ?_, rfl, ?_, hsd, ?_, hdd,
        fun l hl => ⟨(hout l hl).1, by rw [(hout l hl).2]; rfl⟩⟩
      · show (retryRequest p (refreshed p (invoked p w req psp dp) rpsp rdp) req n subscriber
          (some psp) (some dp)).trace = _
        rw [ha2, ha1]
        simp [invoked]
      · rw [← List.singleton_append, structural_append, structural_append, hs1, hs2]
        rfl
      · rw [← List.singleton_append, deliveries_append, deliveries_append, hd1, hd2]
        simp [hv, deliveries, Event.isPush]

theorem pushLoop_trace {β δ : Type} (p : PushProcessor β δ) (req : Request)
    (service subscriber : String) (subid : Nat) :
    ∀ (pairs : List PushServiceProviderDeliveryPointPair) (w : World β δ) (defers : List Event),
    ∃ added d,
      (pushLoop p req service subscriber subid pairs w defers).2.1.trace = w.trace ++ added ∧
      (pushLoop p req service subscriber subid pairs w defers).2.2 = d ++ defers ∧
      structural added = [] ∧ structural d = [] ∧
      deliveries added = pairs.countP (fun x => x.PushServiceProvider.validServiceType) ∧
      deliveries d = 0 ∧
      (∀ l, some l ∈ (pushLoop p req service subscriber subid pairs w defers).1 →
        l.subid = subid ∧ l.dp.isSome = true) ∧
      (pushLoop p req service subscriber subid pairs w defers).1.length = pairs.length := by
  intro pairs
  induction pairs with
  | nil =>
    intro w defers
    exact ⟨[], [], by simp [pushLoop], by simp [pushLoop], rfl, rfl, rfl, rfl,
      by simp [pushLoop], by simp [pushLoop]⟩
  | cons pdpair rest ih =>
    intro w defers
    obtain ⟨a1, d1, ht1, hd1, hs1, hsd1, hc1, hcd1, hsub1⟩ :=
      pushBody_trace p req service subscriber subid pdpair w defers
    obtain ⟨a2, d2, ht2, hd2, hs2, hsd2, hc2, hcd2, hsub2, hlen2⟩ :=
      ih (pushBody p req service subscriber subid pdpair w defers).2.1
        (pushBody p req service subscriber subid pdpair w defers).2.2
    refine ⟨a1 ++ a2, d2 ++ d1, ?_, ?_, ?_, ?_, ?_, ?_, ?_, ?_⟩
    · simp only [pushLoop]
      rw [ht2, ht1, List.append_assoc]
    · simp only [pushLoop]
      rw [hd2, hd1, List.append_assoc]
    · rw [structural_append, hs1, hs2]
      rfl
    · rw [structural_append, hsd1, hsd2]
      rfl
    · rw [deliveries_append, hc1, hc2, List.countP_cons]
      omega
    · rw [deliveries_append, hcd1, hcd2]
    · intro l hl
      simp only [pushLoop, List.mem_cons] at hl
      rcases hl with hl | hl
      · exact hsub1 l hl.symm
      · exact hsub2 l hl
    · simp only [pushLoop, List.length_cons, hlen2]

theorem push_trace {β δ : Type} (p : PushProcessor β δ) (w : World β δ) (req : Request)
    (service subscriber : String) (subid : Nat) :
    ∃ added, (push p w req service subscriber subid).2.trace =
        w.trace ++ Event.GetPairs service subscriber :: added ∧
      structural added = [] ∧
      (∀ l, some l ∈ (push p w req service subscriber subid).1 →
        l.subid = subid ∧ l.dp.isSome = true) := by
  rcases h : p.GetPushServiceProviderDeliveryPointPairs w.db service subscriber with
    ⟨⟨pairs, err⟩, db1⟩
  have key : ∀ (w2 : World β δ) (pre : List Event),
      w2.trace = w.trace ++ Event.GetPairs service subscriber :: pre → structural pre = [] →
      ∃ added,
        (if pairs.length ≤ 0 then (([] : List (Option successPushLog)), w2)
         else ((pushLoop p req service subscriber subid pairs w2 []).1,
           { (pushLoop p req service subscriber subid pairs w2 []).2.1 with
             trace := (pushLoop p req service subscriber subid pairs w2 []).2.1.trace ++
               (pushLoop p req service subscriber subid pairs w2 []).2.2 })).2.trace =
          w.trace ++ Event.GetPairs service subscriber :: added ∧
        structural added = [] ∧
        (∀ l, some l ∈
          (if pairs.length ≤ 0 then (([] : List (Option successPushLog)), w2)
           else ((pushLoop p req service subscriber subid pairs w2 []).1,
             { (pushLoop p req service subscriber subid pairs w2 []).2.1 with
               trace := (pushLoop p req service subscriber subid pairs w2 []).2.1.trace ++
                 (pushLoop p req service subscriber subid pairs w2 []).2.2 })).1 →
          l.subid = subid ∧ l.dp.isSome = true) := by
    intro w2 pre hw2 hpre
    split
    · exact ⟨pre, hw2, hpre, by simp⟩
    · obtain ⟨a, d, ht, hd, hs, hsd, -, -, hsub, -⟩ :=
        pushLoop_trace p req service subscriber subid pairs w2 []
      refine ⟨pre ++ (a ++ d), ?_, ?_, hsub⟩
      · simp [ht, hd, hw2]
      · rw [structural_append, structural_append, hs, hsd, hpre]
        rfl
  unfold push
  rw [h]
  cases err with
  | none => exact key _ [] (by simp) rfl
  | some e =>
    exact key _ [Event.Log (LogLine.PushFailDatabaseError service subscriber e),
      Event.PushFail req subscriber none e] (by simp) rfl

theorem pushBulkLoop_trace {β δ : Type} (p : PushProcessor β δ) (req : Request)
    (service : String) :
    ∀ (subscribers : List String) (i : Nat) (w : World β δ) (dps : List (Option successPushLog)),
    ∃ added,
      (pushBulkLoop p req service subscribers i w dps).2.trace = w.trace ++ added ∧
      structural added = subscribers.map (Event.GetPairs service) ∧
      ((∀ l, some l ∈ dps → l.subid < i ∧ l.dp.isSome = true) →
        ∀ l, some l ∈ (pushBulkLoop p req service subscribers i w dps).1 →
          l.subid < i + subscribers.length ∧ l.dp.isSome = true) := by
  intro subscribers
  induction subscribers with
  | nil =>
    intro i w dps
    exact ⟨[], by simp [pushBulkLoop], rfl, by simp [pushBulkLoop]⟩
  | cons sub rest ih =>
    intro i w dps
    obtain ⟨a1, ht1, hs1, hsub1⟩ := push_trace p w req service sub i
    obtain ⟨a2, ht2, hs2, hsub2⟩ :=
      ih (i + 1) (push p w req service sub i).2 (dps ++ (push p w req service sub i).1)
    refine ⟨Event.GetPairs service sub :: a1 ++ a2, ?_, ?_, ?_⟩
    · simp only [pushBulkLoop]
      rw [ht2, ht1]
      simp
    · rw [structural_append, ← List.singleton_append, structural_append, hs1, hs2]
      rfl
    · intro hdps l hl
      simp only [pushBulkLoop] at hl
      have := hsub2 (by
        intro l hl
        rcases List.mem_append.mp hl with hl | hl
        · exact ⟨Nat.lt_succ_of_lt (hdps l hl).1, (hdps l hl).2⟩
        · rw [(hsub1 l hl).1]
          exact ⟨Nat.lt_succ_self i, (hsub1 l hl).2⟩) l hl
      simp only [List.length_cons]
      exact ⟨by omega, this.2⟩

theorem pushBulkReport_ok {β δ : Type} (req : Request) (service : String)
    (subscribers : List String) :
    ∀ (dps : List (Option successPushLog)) (w : World β δ),
    (∀ l, some l ∈ dps → l.subid < subscribers.length ∧ l.dp.isSome = true) →
    ∃ w1 added, pushBulkReport req service subscribers dps w = Run.ok w1 ∧
      w1.trace = w.trace ++ added ∧ structural added = [] := by
  intro dps
  induction dps with
  | nil =>
    intro w _
    exact ⟨w, [], rfl, by simp, rfl⟩
  | cons o rest ih =>
    intro w h
    cases o with
    | none =>
      obtain ⟨w1, added, hr, ht, hs⟩ := ih w (fun l hl => h l (List.mem_cons_of_mem _ hl))
      exact ⟨w1, added, by simp only [pushBulkReport, hr], ht, hs⟩
    | some pushlog =>
      have hlt : pushlog.subid < subscribers.length := (h pushlog (List.mem_cons_self _ _)).1
      obtain ⟨dp, hdp⟩ := Option.isSome_iff_exists.mp (h pushlog (List.mem_cons_self _ _)).2
      obtain ⟨w1, added, hr, ht, hs⟩ :=
        ih { w with trace := w.trace ++
            [Event.Log (LogLine.PushRequestSuccess service (subscribers.get ⟨pushlog.subid, hlt⟩)
               dp.Name pushlog.id),
             Event.PushSuccess req (subscribers.get ⟨pushlog.subid, hlt⟩) dp pushlog.id] }
          (fun l hl => h l (List.mem_cons_of_mem _ hl))
      refine ⟨w1,
        [Event.Log (LogLine.PushRequestSuccess service (subscribers.get ⟨pushlog.subid, hlt⟩)
           dp.Name pushlog.id),
         Event.PushSuccess req (subscribers.get ⟨pushlog.subid, hlt⟩) dp pushlog.id]
          ++ added, ?_, ?_, ?_⟩
      · simp only [pushBulkReport, List.getElem?_eq_getElem hlt, hdp]
        exact hr
      · rw [ht]
        simp only [List.append_assoc]
      · rw [structural_append, hs]
        rfl

theorem pushBulk_ok {β δ : Type} (p : PushProcessor β δ) (w : World β δ) (req : Request)
    (service : String) (subscribers : List String) (finish : Bool) :
    ∃ w1 added, pushBulk p w req service subscribers finish = Run.ok w1 ∧
      w1.trace = w.trace ++ added ∧
      structural added = subscribers.map (Event.GetPairs service) ++
        (if finish then [Event.FinishSend] else []) := by
  obtain ⟨a1, ht1, hs1, hsub1⟩ := pushBulkLoop_trace p req service subscribers 0 w []
  obtain ⟨w1, a2, hr, ht2, hs2⟩ :=
    pushBulkReport_ok req service subscribers (pushBulkLoop p req service subscribers 0 w []).1
      (pushBulkLoop p req service subscribers 0 w []).2
      (fun l hl => by simpa using hsub1 (by simp) l hl)
  cases finish with
  | false =>
    refine ⟨w1, a1 ++ a2, ?_, ?_, ?_⟩
    · simp [pushBulk, hr]
    · rw [ht2, ht1, List.append_assoc]
    · rw [structural_append, hs1, hs2]
      simp
  | true =>
    refine ⟨{ w1 with trace := w1.trace ++ [Event.FinishSend] }, a1 ++ a2 ++ [Event.FinishSend],
      ?_, ?_, ?_⟩
    · simp [pushBulk, hr]
    · simp [ht2, ht1]
    · rw [structural_append, structural_append, hs1, hs2]
      simp [structural, Event.isStructural]

theorem runWorkers_ok {β δ : Type} (p : PushProcessor β δ) (req : Request) :
    ∀ (chunks : List Chunk) (w : World β δ),
    ∃ w1 added, runWorkers p req chunks w = Run.ok w1 ∧
      w1.trace = w.trace ++ added ∧
      structural added = chunks.flatMap (fun c =>
        c.subscribers.map (Event.GetPairs req.Service) ++ [Event.FinishSend]) := by
  intro chunks
  induction chunks with
  | nil =>
    intro w
    exact ⟨w, [], rfl, by simp, rfl⟩
  | cons c cs ih =>
    intro w
    obtain ⟨w1, a1, hr1, ht1, hs1⟩ := pushBulk_ok p w req req.Service c.subscribers true
    obtain ⟨w2, a2, hr2, ht2, hs2⟩ := ih w1
    refine ⟨w2, a1 ++ a2, ?_, ?_, ?_⟩
    · simp only [runWorkers, hr1, hr2]
    · rw [ht2, ht1, List.append_assoc]
    · rw [structural_append, hs1, hs2]
      simp

/-! ## Theorems: Process -/

theorem spawnLoop_Process (subscribers : List String) (maxWorkers : Int) (fuel : Nat)
    (h1 : 1 ≤ maxWorkers) (hf : maxWorkers < fuel) :
    spawnLoop subscribers
        ((subscribers.length : Int) - Int.tmod subscribers.length maxWorkers)
        (Int.tdiv subscribers.length maxWorkers) fuel 0 0 [] =
      Run.ok
        (((subscribers.length / maxWorkers.toNat * maxWorkers.toNat : Nat) : Int),
         ((workerCount subscribers.length maxWorkers.toNat : Nat) : Int),
         evenChunks subscribers (subscribers.length / maxWorkers.toNat)
           (workerCount subscribers.length maxWorkers.toNat)) := by
  unfold evenChunks workerCount
  obtain ⟨m, rfl⟩ : ∃ m : Nat, maxWorkers = m := ⟨maxWorkers.toNat, by omega⟩
  simp only [Int.toNat_ofNat]
  have hm : 1 ≤ m := by omega
  have hdiv : Int.tdiv (subscribers.length : Int) (m : Int) = ((subscribers.length / m : Nat) : Int) := by
    rw [Int.tdiv_eq_ediv (by omega) (by omega), Int.natCast_div]
  have hmod : Int.tmod (subscribers.length : Int) (m : Int) = ((subscribers.length % m : Nat) : Int) := by
    rw [Int.tmod_eq_emod (by omega) (by omega), Int.natCast_mod]
  have hsplit := Nat.div_add_mod subscribers.length m
  have hcomm : m * (subscribers.length / m) = subscribers.length / m * m := Nat.mul_comm _ _
  have hbound : (subscribers.length : Int) - ((subscribers.length % m : Nat) : Int) =
      ((subscribers.length / m * m : Nat) : Int) := by omega
  rw [hdiv, hmod, hbound]
  obtain ⟨f, rfl⟩ : ∃ f, fuel = f + 1 := ⟨fuel - 1, by omega⟩
  by_cases hq : subscribers.length / m = 0
  · simp [hq, spawnLoop]
  · have hrun := spawnLoop_run subscribers (subscribers.length / m) (Nat.pos_of_ne_zero hq)
      ((subscribers.length / m * m : Nat) : Int) ((subscribers.length / m : Nat) : Int) rfl
      m (f + 1) 0 0 0 [] (by omega) (by simp) (by rw [Nat.zero_add, Nat.mul_comm])
      (by rw [Nat.zero_add]; omega)
    rw [hrun]
    simp [hq]

theorem tiles_append (xs : List String) :
    ∀ (cs ds : List Chunk) (lo mid hi : Int), tiles xs lo cs mid = true →
      tiles xs mid ds hi = true → tiles xs lo (cs ++ ds) hi = true := by
  intro cs
  induction cs with
  | nil =>
    intro ds lo mid hi h1 h2
    simp only [tiles, decide_eq_true_eq] at h1
    subst h1
    exact h2
  | cons c cs ih =>
    intro ds lo mid hi h1 h2
    simp only [tiles, Bool.and_eq_true, decide_eq_true_eq] at h1
    simp only [List.cons_append, tiles, Bool.and_eq_true, decide_eq_true_eq]
    exact ⟨h1.1, ih ds c.hi mid hi h1.2 h2⟩

theorem tiles_range (xs : List String) (q : Nat) :
    ∀ (k a : Nat), (a + k) * q ≤ xs.length →
      tiles xs ((a * q : Nat) : Int)
        ((List.range' a k).map (fun i =>
          (⟨((i * q : Nat) : Int), ((i * q : Nat) : Int) + (q : Int),
            (xs.drop (i * q)).take q⟩ : Chunk)))
        (((a + k) * q : Nat) : Int) = true := by
  intro k
  induction k with
  | zero =>
    intro a _
    simp [tiles]
  | succ k ih =>
    intro a h
    have h2 := ih (a + 1) (by rw [show a + 1 + k = a + (k + 1) by omega]; exact h)
    have hle : (a + 1) * q ≤ xs.length := le_trans (Nat.mul_le_mul_right q (by omega)) h
    have hcast : ((a * q : Nat) : Int) + (q : Int) = (((a + 1) * q : Nat) : Int) := by
      push_cast; ring
    have hsl : goSlice xs ((a * q : Nat) : Int) (((a + 1) * q : Nat) : Int) =
        some ((xs.drop (a * q)).take q) := by
      rw [goSlice_cast xs (a * q) ((a + 1) * q) (Nat.mul_le_mul_right q (by omega)) hle]
      congr 2
      rw [Nat.add_mul, Nat.one_mul, Nat.add_sub_cancel_left]
    rw [show a + 1 + k = a + (k + 1) by omega] at h2
    simp only [List.range'_succ, List.map_cons, tiles, Bool.and_eq_true, decide_eq_true_eq,
      hcast, hsl, h2, and_self]

theorem flatten_range (xs : List String) (q : Nat) :
    ∀ k : Nat,
      ((List.range' 0 k).map (fun i => (xs.drop (i * q)).take q)).flatten = xs.take (k * q) := by
  intro k
  induction k with
  | zero => simp
  | succ k ih =>
    rw [List.range'_concat, List.map_append, List.flatten_append, ih]
    simp only [Nat.zero_add, Nat.one_mul, List.map_cons, List.map_nil, List.flatten_cons,
      List.flatten_nil, List.append_nil]
    rw [Nat.add_mul, Nat.one_mul, List.take_add]

theorem goSlice_tail {α : Type} (xs : List α) (a : Nat) (h : a ≤ xs.length) :
    goSlice xs (a : Int) (xs.length : Int) = some (xs.drop a) := by
  rw [goSlice_cast xs a xs.length h le_rfl]
  congr 1
  apply List.take_of_length_le
  simp

theorem Process_general {β δ : Type} (p : PushProcessor β δ) (fuel : Nat) (w : World β δ)
    (req : Request) (h1 : 1 ≤ p.max_nr_gorountines) (hf : p.max_nr_gorountines < fuel)
    (hfast : fastPath req = false) :
    ∃ w1 added, Process p fuel w req = Run.ok w1 ∧ w1.trace = w.trace ++ added ∧
      structural added =
        (evenChunks req.Subscribers (req.Subscribers.length / p.max_nr_gorountines.toNat)
            (workerCount req.Subscribers.length p.max_nr_gorountines.toNat)).flatMap
          (fun c => c.subscribers.map (Event.GetPairs req.Service) ++ [Event.FinishSend]) ++
        (req.Subscribers.drop
            (req.Subscribers.length / p.max_nr_gorountines.toNat * p.max_nr_gorountines.toNat)).map
          (Event.GetPairs req.Service) ++
        List.replicate (workerCount req.Subscribers.length p.max_nr_gorountines.toNat)
          Event.FinishRecv := by
  have hne : ¬ p.max_nr_gorountines = 0 := by omega
  have hle : req.Subscribers.length / p.max_nr_gorountines.toNat * p.max_nr_gorountines.toNat
      ≤ req.Subscribers.length := Nat.div_mul_le_self _ _
  obtain ⟨w1, a1, hr1, ht1, hs1⟩ := runWorkers_ok p req
    (evenChunks req.Subscribers (req.Subscribers.length / p.max_nr_gorountines.toNat)
      (workerCount req.Subscribers.length p.max_nr_gorountines.toNat))
    { w with trace := w.trace ++ [Event.Log (LogLine.Debug req.Service req.Subscribers)] }
  simp only [Process, if_neg hne, hfast, Bool.false_eq_true, if_false,
    spawnLoop_Process req.Subscribers p.max_nr_gorountines fuel h1 hf, hr1, Int.toNat_ofNat]
  by_cases hpos : ((req.Subscribers.length / p.max_nr_gorountines.toNat *
      p.max_nr_gorountines.toNat : Nat) : Int) < (req.Subscribers.length : Int)
  · obtain ⟨w2, a2, hr2, ht2, hs2⟩ := pushBulk_ok p w1 req req.Service
      (req.Subscribers.drop
        (req.Subscribers.length / p.max_nr_gorountines.toNat * p.max_nr_gorountines.toNat)) false
    simp only [if_pos hpos, goSlice_tail req.Subscribers _ hle, hr2]
    refine ⟨_, Event.Log (LogLine.Debug req.Service req.Subscribers) :: (a1 ++ a2) ++
      List.replicate (workerCount req.Subscribers.length p.max_nr_gorountines.toNat)
        Event.FinishRecv, rfl, ?_, ?_⟩
    · simp [ht2, ht1]
    · rw [structural_append, ← List.singleton_append, structural_append, structural_append,
        hs1, hs2]
      simp [structural, Event.isStructural]
  · have hdrop : req.Subscribers.drop
        (req.Subscribers.length / p.max_nr_gorountines.toNat * p.max_nr_gorountines.toNat) = [] := by
      apply List.drop_of_length_le
      omega
    simp only [if_neg hpos]
    refine ⟨_, Event.Log (LogLine.Debug req.Service req.Subscribers) :: a1 ++
      List.replicate (workerCount req.Subscribers.length p.max_nr_gorountines.toNat)
        Event.FinishRecv, rfl, ?_, ?_⟩
    · simp [ht1]
    · rw [structural_append, ← List.singleton_append, structural_append, hs1, hdrop]
      simp [structural, Event.isStructural]

/-! ## Theorems: pushToSingleDeliveryPoint -/

theorem pushToSingleDeliveryPoint_eq_pushBody {β δ : Type} (p : PushProcessor β δ)
    (w : World β δ) (req : Request) (subscriber : String) (others : List String)
    (psp : PushServiceProvider) (dp : DeliveryPoint)
    (hs : req.Subscribers = subscriber :: others) (hp : req.PushServiceProvider = some psp)
    (hd : req.DeliveryPoint = some dp) :
    pushToSingleDeliveryPoint p w req =
      Run.ok ([(pushBody p req req.Service subscriber 0 ⟨psp, dp⟩ w []).1],
        { (pushBody p req req.Service subscriber 0 ⟨psp, dp⟩ w []).2.1 with
          trace := (pushBody p req req.Service subscriber 0 ⟨psp, dp⟩ w []).2.1.trace ++
            (pushBody p req req.Service subscriber 0 ⟨psp, dp⟩ w []).2.2 }) := by
  cases hv : psp.validServiceType with
  | false => simp [pushToSingleDeliveryPoint, pushBody, hs, hp, hd, hv]
  | true =>
    cases hr : (p.pushers psp.serviceID w.backend psp (some dp) req.Notification).1.2 with
    | none => simp [pushToSingleDeliveryPoint, pushBody, hs, hp, hd, hv, hr]
    | some err =>
      cases err with
      | RetryError n => simp [pushToSingleDeliveryPoint, pushBody, hs, hp, hd, hv, hr]
      | Other m => simp [pushToSingleDeliveryPoint, pushBody, hs, hp, hd, hv, hr]
      | RefreshDataError rpsp rdp other =>
        cases other with
        | none =>
          cases rpsp <;> cases rdp <;>
            simp [pushToSingleDeliveryPoint, pushBody, hs, hp, hd, hv, hr]
        | some e =>
          cases e <;> cases rpsp <;> cases rdp <;>
            simp [pushToSingleDeliveryPoint, pushBody, hs, hp, hd, hv, hr]

theorem reportSingle_ok {β δ : Type} (req : Request) (subscriber : String)
    (others : List String) (hs : req.Subscribers = subscriber :: others) :
    ∀ (dps : List (Option successPushLog)) (w : World β δ),
    (∀ l, some l ∈ dps → l.dp.isSome = true) →
    ∃ w1 added, reportSingle req dps w = Run.ok w1 ∧ w1.trace = w.trace ++ added ∧
      structural added = [] ∧ deliveries added = 0 ∧ failures added = 0 ∧
      added.countP Event.isPushSuccess = dps.countP Option.isSome := by
  intro dps
  induction dps with
  | nil =>
    intro w _
    exact ⟨w, [], rfl, by simp, rfl, rfl, rfl, rfl⟩
  | cons o rest ih =>
    intro w h
    cases o with
    | none =>
      obtain ⟨w1, added, hr, ht, hst, hd, hf, hc⟩ :=
        ih w (fun l hl => h l (List.mem_cons_of_mem _ hl))
      exact ⟨w1, added, by simp only [reportSingle, hr], ht, hst, hd, hf, by simpa using hc⟩
    | some pushlog =>
      obtain ⟨dp, hdp⟩ := Option.isSome_iff_exists.mp (h pushlog (List.mem_cons_self _ _))
      obtain ⟨w1, added, hr, ht, hst, hd, hf, hc⟩ :=
        ih { w with trace := w.trace ++
            [Event.Log (LogLine.PushRequestSuccess req.Service subscriber dp.Name pushlog.id),
             Event.PushSuccess req subscriber dp pushlog.id] }
          (fun l hl => h l (List.mem_cons_of_mem _ hl))
      refine ⟨w1,
        [Event.Log (LogLine.PushRequestSuccess req.Service subscriber dp.Name pushlog.id),
         Event.PushSuccess req subscriber dp pushlog.id] ++ added, ?_, ?_, ?_, ?_, ?_, ?_⟩
      · simp only [reportSingle, hs, List.getElem?_cons_zero, hdp]
        exact hr
      · rw [ht]
        simp only [List.append_assoc]
      · rw [structural_append, hst]
        rfl
      · rw [deliveries_append, hd]
        rfl
      · unfold failures at hf ⊢
        rw [List.countP_append, hf]
        rfl
      · rw [List.countP_append, hc]
        simp [List.countP_cons, Event.isPushSuccess]
        omega

theorem Process_fast {β δ : Type} (p : PushProcessor β δ) (fuel : Nat) (w : World β δ)
    (req : Request) (h0 : p.max_nr_gorountines ≠ 0) (hfast : fastPath req = true) :
    ∃ subscriber psp dp dps w0 w1 added,
      req.Subscribers = [subscriber] ∧ req.PushServiceProvider = some psp ∧
      req.DeliveryPoint = some dp ∧
      pushToSingleDeliveryPoint p
        { w with trace := w.trace ++ [Event.Log (LogLine.Debug req.Service req.Subscribers)] }
        req = Run.ok (dps, w0) ∧
      dps.length = 1 ∧
      reportSingle req dps w0 = Run.ok w1 ∧
      Process p fuel w req = Run.ok w1 ∧
      w1.trace = w.trace ++ added ∧
      structural added = [] ∧
      deliveries added = (if psp.validServiceType then 1 else 0) := by
  have hf := hfast
  simp only [fastPath, Bool.and_eq_true, decide_eq_true_eq, Option.isSome_iff_exists] at hf
  obtain ⟨⟨hlen, psp, hp⟩, dp, hd⟩ := hf
  obtain ⟨subscriber, hs⟩ := List.length_eq_one.mp hlen
  have hsingle := pushToSingleDeliveryPoint_eq_pushBody p
    { w with trace := w.trace ++ [Event.Log (LogLine.Debug req.Service req.Subscribers)] }
    req subscriber [] psp dp hs hp hd
  obtain ⟨a, d, hta, hda, hsa, hsd, hca, hcd, hsome⟩ :=
    pushBody_trace p req req.Service subscriber 0 ⟨psp, dp⟩
    { w with trace := w.trace ++ [Event.Log (LogLine.Debug req.Service req.Subscribers)] } []
  obtain ⟨w1, a2, hr, ht2, hs2, hd2, -⟩ := reportSingle_ok req subscriber [] hs
    [(pushBody p req req.Service subscriber 0 ⟨psp, dp⟩
      { w with trace := w.trace ++ [Event.Log (LogLine.Debug req.Service req.Subscribers)] }
      []).1]
    { (pushBody p req req.Service subscriber 0 ⟨psp, dp⟩
        { w with trace := w.trace ++ [Event.Log (LogLine.Debug req.Service req.Subscribers)] }
        []).2.1 with
      trace := (pushBody p req req.Service subscriber 0 ⟨psp, dp⟩
        { w with trace := w.trace ++ [Event.Log (LogLine.Debug req.Service req.Subscribers)] }
        []).2.1.trace ++
        (pushBody p req req.Service subscriber 0 ⟨psp, dp⟩
        { w with trace := w.trace ++ [Event.Log (LogLine.Debug req.Service req.Subscribers)] }
        []).2.2 }
    (fun l hl => (hsome l (List.mem_singleton.mp hl).symm).2)
  refine ⟨subscriber, psp, dp, _, _, w1,
    Event.Log (LogLine.Debug req.Service req.Subscribers) :: (a ++ d) ++ a2,
    hs, hp, hd, hsingle, rfl, hr, ?_, ?_, ?_, ?_⟩
  · simp only [Process, if_neg h0, hfast, if_true, hsingle, hr]
  · rw [ht2]
    simp only [hta, hda]
    simp
  · rw [structural_append, ← List.singleton_append, structural_append, structural_append, hsa,
      hsd, hs2]
    rfl
  · rw [deliveries_append, ← List.singleton_append, deliveries_append, deliveries_append, hca,
      hcd, hd2]
    simp [deliveries, Event.isPush]

/-! ## Theorems: counting -/

theorem resolutions_structural (t : List Event) :
    resolutions t = (structural t).countP Event.isGetPairs := by
  induction t with
  | nil => rfl
  | cons e es ih =>
    cases e <;>
      simp [resolutions, structural, Event.isStructural, Event.isGetPairs, List.filter_cons,
        List.countP_cons] at ih ⊢ <;> omega

theorem finishSend_structural (t : List Event) :
    t.countP Event.isFinishSend = (structural t).countP Event.isFinishSend := by
  induction t with
  | nil => rfl
  | cons e es ih =>
    cases e <;>
      simp [structural, Event.isStructural, Event.isFinishSend, List.filter_cons,
        List.countP_cons] at ih ⊢ <;> omega

theorem finishRecv_structural (t : List Event) :
    t.countP Event.isFinishRecv = (structural t).countP Event.isFinishRecv := by
  induction t with
  | nil => rfl
  | cons e es ih =>
    cases e <;>
      simp [structural, Event.isStructural, Event.isFinishRecv, List.filter_cons,
        List.countP_cons] at ih ⊢ <;> omega

theorem count_workers (service : String) :
    ∀ cs : List Chunk,
      (cs.flatMap (fun c =>
          c.subscribers.map (Event.GetPairs service) ++ [Event.FinishSend])).countP
          Event.isGetPairs = ((cs.map Chunk.subscribers).flatten).length ∧
      (cs.flatMap (fun c =>
          c.subscribers.map (Event.GetPairs service) ++ [Event.FinishSend])).countP
          Event.isFinishSend = cs.length ∧
      (cs.flatMap (fun c =>
          c.subscribers.map (Event.GetPairs service) ++ [Event.FinishSend])).countP
          Event.isFinishRecv = 0 := by
  have hmap : ∀ xs : List String,
      (xs.map (Event.GetPairs service)).countP Event.isGetPairs = xs.length ∧
      (xs.map (Event.GetPairs service)).countP Event.isFinishSend = 0 ∧
      (xs.map (Event.GetPairs service)).countP Event.isFinishRecv = 0 := by
    intro xs
    induction xs with
    | nil => exact ⟨rfl, rfl, rfl⟩
    | cons x xs ih =>
      simp [List.countP_cons, Event.isGetPairs, Event.isFinishSend, Event.isFinishRecv, ih]
  intro cs
  induction cs with
  | nil => exact ⟨rfl, rfl, rfl⟩
  | cons c cs ih =>
    obtain ⟨h1, h2, h3⟩ := ih
    obtain ⟨m1, m2, m3⟩ := hmap c.subscribers
    simp only [List.flatMap_cons, List.countP_append, h1, h2, h3, m1, m2, m3, List.map_cons,
      List.flatten_cons, List.length_append, List.length_cons]
    simp [List.countP_cons, Event.isGetPairs, Event.isFinishSend, Event.isFinishRecv]
    omega

theorem count_rest (service : String) (xs : List String) :
    (xs.map (Event.GetPairs service)).countP Event.isGetPairs = xs.length ∧
    (xs.map (Event.GetPairs service)).countP Event.isFinishSend = 0 ∧
    (xs.map (Event.GetPairs service)).countP Event.isFinishRecv = 0 := by
  induction xs with
  | nil => exact ⟨rfl, rfl, rfl⟩
  | cons x xs ih =>
    simp [List.countP_cons, Event.isGetPairs, Event.isFinishSend, Event.isFinishRecv, ih]

theorem evenChunks_subscribers (xs : List String) (q k : Nat) :
    ((evenChunks xs q k).map Chunk.subscribers).flatten = xs.take (k * q) := by
  rw [← flatten_range xs q k]
  simp [evenChunks, Function.comp_def]

theorem evenChunks_length (xs : List String) (q k : Nat) : (evenChunks xs q k).length = k := by
  simp [evenChunks]

theorem evenChunks_mem (xs : List String) (q k : Nat) (h : k * q ≤ xs.length) (c : Chunk)
    (hc : c ∈ evenChunks xs q k) :
    0 ≤ c.lo ∧ c.lo ≤ c.hi ∧ c.hi ≤ xs.length ∧ c.hi = c.lo + q ∧
      goSlice xs c.lo c.hi = some c.subscribers ∧ c.subscribers.length = q := by
  simp only [evenChunks, List.mem_map, List.mem_range'_1] at hc
  obtain ⟨i, ⟨-, hi⟩, rfl⟩ := hc
  have hle : (i + 1) * q ≤ xs.length := le_trans (Nat.mul_le_mul_right q (by omega)) h
  have hcast : ((i * q : Nat) : Int) + (q : Int) = (((i + 1) * q : Nat) : Int) := by
    push_cast; ring
  have hiq : i * q + q ≤ xs.length := by rw [Nat.add_mul, Nat.one_mul] at hle; exact hle
  refine ⟨by positivity, by show ((i * q : Nat) : Int) ≤ ((i * q : Nat) : Int) + (q : Int); omega,
    by show ((i * q : Nat) : Int) + (q : Int) ≤ (xs.length : Int); omega, rfl, ?_, ?_⟩
  · simp only [hcast]
    rw [goSlice_cast xs (i * q) ((i + 1) * q) (Nat.mul_le_mul_right q (by omega)) hle]
    congr 2
    rw [Nat.add_mul, Nat.one_mul, Nat.add_sub_cancel_left]
  · simp only [List.length_take, List.length_drop]
    omega

theorem workerCount_mul (n m : Nat) : workerCount n m * (n / m) = n / m * m := by
  unfold workerCount
  split
  · rename_i h
    simp [h]
  · exact Nat.mul_comm _ _

theorem workerCount_le (n m : Nat) : workerCount n m ≤ m := by
  unfold workerCount
  split <;> omega

theorem Process_arith (n : Nat) (maxWorkers : Int) (h1 : 1 ≤ maxWorkers) :
    Int.tdiv (n : Int) maxWorkers = ((n / maxWorkers.toNat : Nat) : Int) ∧
    Int.tmod (n : Int) maxWorkers = ((n % maxWorkers.toNat : Nat) : Int) ∧
    n / maxWorkers.toNat * maxWorkers.toNat + n % maxWorkers.toNat = n ∧
    n % maxWorkers.toNat < maxWorkers.toNat := by
  obtain ⟨m, rfl⟩ : ∃ m : Nat, maxWorkers = m := ⟨maxWorkers.toNat, by omega⟩
  simp only [Int.toNat_ofNat]
  refine ⟨?_, ?_, ?_, Nat.mod_lt _ (by omega)⟩
  · rw [Int.tdiv_eq_ediv (by omega) (by omega), Int.natCast_div]
  · rw [Int.tmod_eq_emod (by omega) (by omega), Int.natCast_mod]
  · rw [Nat.mul_comm]
    exact Nat.div_add_mod n m

/-! ## Theorems: the claims on Process -/

/-- C10: for every subscriber list and every bound of at least one worker, the
loop of `Process` that spawns the workers ends (with any fuel above the bound
the model returns a result, neither a panic nor a timeout); every slice it
takes has bounds with `0 ≤ lo ≤ hi ≤ N` and `hi = lo + N / maxWorkers`; the
final position `pos` has `0 ≤ pos ≤ N`, so that the slice of the remainder is
within bounds too; and when `N < maxWorkers` the step and the bound of the loop
are both 0 and no slice is taken by the loop. -/
theorem Process_loop_terminates_within_bounds (subscribers : List String) (maxWorkers : Int)
    (fuel : Nat) (h1 : 1 ≤ maxWorkers) (hf : maxWorkers < fuel) :
    ∃ pos nr spawned rest,
      spawnLoop subscribers
        ((subscribers.length : Int) - Int.tmod subscribers.length maxWorkers)
        (Int.tdiv subscribers.length maxWorkers) fuel 0 0 [] = Run.ok (pos, nr, spawned) ∧
      (∀ c ∈ spawned, 0 ≤ c.lo ∧ c.lo ≤ c.hi ∧ c.hi ≤ subscribers.length ∧
        c.hi = c.lo + Int.tdiv subscribers.length maxWorkers ∧
        goSlice subscribers c.lo c.hi = some c.subscribers) ∧
      0 ≤ pos ∧ pos ≤ subscribers.length ∧
      goSlice subscribers pos subscribers.length = some rest ∧
      ((subscribers.length : Int) < maxWorkers →
        Int.tdiv subscribers.length maxWorkers = 0 ∧
        (subscribers.length : Int) - Int.tmod subscribers.length maxWorkers = 0 ∧
        spawned = []) := by
  obtain ⟨hdiv, hmod, hsum, hlt⟩ := Process_arith subscribers.length maxWorkers h1
  have hle : subscribers.length / maxWorkers.toNat * maxWorkers.toNat ≤ subscribers.length :=
    Nat.div_mul_le_self _ _
  refine ⟨_, _, _, subscribers.drop (subscribers.length / maxWorkers.toNat * maxWorkers.toNat),
    spawnLoop_Process subscribers maxWorkers fuel h1 hf, ?_, by positivity, by exact_mod_cast hle,
    goSlice_tail subscribers _ hle, ?_⟩
  · intro c hc
    obtain ⟨c1, c2, c3, c4, c5, -⟩ := evenChunks_mem subscribers _ _
      (by rw [workerCount_mul]; exact hle) c hc
    exact ⟨c1, c2, c3, by rw [c4, hdiv], c5⟩
  · intro hsmall
    have hq : subscribers.length / maxWorkers.toNat = 0 :=
      Nat.div_eq_of_lt (by omega)
    refine ⟨by rw [hdiv, hq]; rfl, ?_, ?_⟩
    · rw [hmod]
      rw [hq] at hsum
      omega
    · simp [workerCount, hq, evenChunks]

theorem Process_loop_terminates_within_bounds_witness :
    ∃ pos nr spawned rest,
      spawnLoop ["a", "b", "c"] (((["a", "b", "c"] : List String).length : Int) -
          Int.tmod (["a", "b", "c"] : List String).length 1024)
        (Int.tdiv (["a", "b", "c"] : List String).length 1024) 1025 0 0 [] =
          Run.ok (pos, nr, spawned) ∧
      (∀ c ∈ spawned, 0 ≤ c.lo ∧ c.lo ≤ c.hi ∧ c.hi ≤ (["a", "b", "c"] : List String).length ∧
        c.hi = c.lo + Int.tdiv (["a", "b", "c"] : List String).length 1024 ∧
        goSlice ["a", "b", "c"] c.lo c.hi = some c.subscribers) ∧
      0 ≤ pos ∧ pos ≤ (["a", "b", "c"] : List String).length ∧
      goSlice ["a", "b", "c"] pos (["a", "b", "c"] : List String).length = some rest ∧
      ((((["a", "b", "c"] : List String).length : Nat) : Int) < 1024 →
        Int.tdiv (["a", "b", "c"] : List String).length 1024 = 0 ∧
        (((["a", "b", "c"] : List String).length : Nat) : Int) -
          Int.tmod (["a", "b", "c"] : List String).length 1024 = 0 ∧
        spawned = []) :=
  Process_loop_terminates_within_bounds ["a", "b", "c"] 1024 1025 (by decide) (by decide)

/-- C5 as stated fails on the fast path: for a request with one subscriber and
an attached pair whose provider has no valid service type, `Process` takes the
fast path and makes no delivery at all (line 139 skips the backend); its only
effect is the debug line. -/
theorem Process_fast_path_invalid_provider_delivers_nothing :
    fastPath invalidProviderRequest = true ∧
    Process sampleProcessor 0 sampleWorld invalidProviderRequest =
      Run.ok { sampleWorld with trace := [Event.Log (LogLine.Debug "service" ["a"])] } ∧
    deliveries [Event.Log (LogLine.Debug "service" ["a"])] = 0 :=
  ⟨rfl, rfl, rfl⟩

/-- C5, amended: with a bound of workers that is not zero, `Process` returns.
On the general path (with a bound of at least one worker and enough fuel for
the loop) the chunks it hands to `pushBulk` (those of the spawned workers, then
the remainder if it is not empty) tile the subscriber list from 0 to N, each
beginning where the one before ends, and their subscribers concatenate to the
subscriber list; `push` is called once for each subscriber of each chunk, in
order, so that exactly N lookups are made. On the fast path
`pushToSingleDeliveryPoint` is called once, it has one outcome slot, no lookup
is made, and exactly one delivery is made if the attached provider has a valid
service type, none if it has not (the run then has no effect but the debug
line). -/
theorem Process_resolves_each_subscriber_once {β δ : Type} (p : PushProcessor β δ)
    (fuel : Nat) (w : World β δ) (req : Request) (h0 : p.max_nr_gorountines ≠ 0) :
    (fastPath req = false → 1 ≤ p.max_nr_gorountines → p.max_nr_gorountines < fuel →
      ∃ pos nr spawned rest w1,
        spawnLoop req.Subscribers
          ((req.Subscribers.length : Int) - Int.tmod req.Subscribers.length p.max_nr_gorountines)
          (Int.tdiv req.Subscribers.length p.max_nr_gorountines) fuel 0 0 [] =
            Run.ok (pos, nr, spawned) ∧
        goSlice req.Subscribers pos req.Subscribers.length = some rest ∧
        tiles req.Subscribers 0
          (spawned ++ (if pos < req.Subscribers.length
            then [Chunk.mk pos req.Subscribers.length rest] else []))
          req.Subscribers.length = true ∧
        ((spawned ++ (if pos < req.Subscribers.length
            then [Chunk.mk pos req.Subscribers.length rest] else [])).map
          Chunk.subscribers).flatten = req.Subscribers ∧
        Process p fuel w req = Run.ok w1 ∧
        structural w1.trace = structural w.trace ++
          ((spawned.flatMap (fun c =>
              c.subscribers.map (Event.GetPairs req.Service) ++ [Event.FinishSend]) ++
            rest.map (Event.GetPairs req.Service)) ++
            List.replicate spawned.length Event.FinishRecv) ∧
        resolutions w1.trace = resolutions w.trace + req.Subscribers.length) ∧
    (fastPath req = true →
      ∃ psp dps w0 w1,
        req.PushServiceProvider = some psp ∧
        pushToSingleDeliveryPoint p
          { w with trace := w.trace ++ [Event.Log (LogLine.Debug req.Service req.Subscribers)] }
          req = Run.ok (dps, w0) ∧
        dps.length = 1 ∧
        reportSingle req dps w0 = Run.ok w1 ∧
        Process p fuel w req = Run.ok w1 ∧
        resolutions w1.trace = resolutions w.trace ∧
        deliveries w1.trace = deliveries w.trace + (if psp.validServiceType then 1 else 0) ∧
        (psp.validServiceType = false →
          w1.trace = w.trace ++ [Event.Log (LogLine.Debug req.Service req.Subscribers)])) := by
  constructor
  · intro hfast h1 hf
    obtain ⟨hdiv, hmod, hsum, hlt⟩ :=
      Process_arith req.Subscribers.length p.max_nr_gorountines h1
    have hle : req.Subscribers.length / p.max_nr_gorountines.toNat * p.max_nr_gorountines.toNat
        ≤ req.Subscribers.length := Nat.div_mul_le_self _ _
    obtain ⟨w1, added, hP, ht, hs⟩ := Process_general p fuel w req h1 hf hfast
    have hflat : ((evenChunks req.Subscribers
          (req.Subscribers.length / p.max_nr_gorountines.toNat)
          (workerCount req.Subscribers.length p.max_nr_gorountines.toNat)).map
          Chunk.subscribers).flatten ++
        req.Subscribers.drop
          (req.Subscribers.length / p.max_nr_gorountines.toNat * p.max_nr_gorountines.toNat) =
        req.Subscribers := by
      rw [evenChunks_subscribers, workerCount_mul, List.take_append_drop]
    have hstruct : structural w1.trace = structural w.trace ++
        (((evenChunks req.Subscribers (req.Subscribers.length / p.max_nr_gorountines.toNat)
            (workerCount req.Subscribers.length p.max_nr_gorountines.toNat)).flatMap
          (fun c => c.subscribers.map (Event.GetPairs req.Service) ++ [Event.FinishSend]) ++
        (req.Subscribers.drop
            (req.Subscribers.length / p.max_nr_gorountines.toNat *
              p.max_nr_gorountines.toNat)).map (Event.GetPairs req.Service)) ++
        List.replicate (evenChunks req.Subscribers
            (req.Subscribers.length / p.max_nr_gorountines.toNat)
            (workerCount req.Subscribers.length p.max_nr_gorountines.toNat)).length
          Event.FinishRecv) := by
      rw [ht, structural_append, hs, evenChunks_length]
    refine ⟨_, _, _,
      req.Subscribers.drop
        (req.Subscribers.length / p.max_nr_gorountines.toNat * p.max_nr_gorountines.toNat), w1,
      spawnLoop_Process req.Subscribers p.max_nr_gorountines fuel h1 hf,
      goSlice_tail req.Subscribers _ hle, ?_, ?_, hP, hstruct, ?_⟩
    · have htr := tiles_range req.Subscribers
        (req.Subscribers.length / p.max_nr_gorountines.toNat)
        (workerCount req.Subscribers.length p.max_nr_gorountines.toNat) 0
        (by rw [Nat.zero_add, workerCount_mul]; exact hle)
      rw [Nat.zero_add, workerCount_mul, Nat.zero_mul] at htr
      refine tiles_append req.Subscribers _ _ _ _ _ htr ?_
      split
      · simp only [tiles, goSlice_tail req.Subscribers _ hle, decide_True, Bool.and_self]
      · simp only [tiles, decide_eq_true_eq]
        omega
    · rw [List.map_append, List.flatten_append]
      split
      · simpa using hflat
      · rename_i hpos
        have hdrop : req.Subscribers.drop
            (req.Subscribers.length / p.max_nr_gorountines.toNat *
              p.max_nr_gorountines.toNat) = [] := by
          apply List.drop_of_length_le
          omega
        rw [hdrop] at hflat
        simpa using hflat
    · rw [resolutions_structural, hstruct, List.countP_append, List.countP_append,
        List.countP_append, (count_workers req.Service _).1, (count_rest req.Service _).1,
        ← resolutions_structural, List.countP_replicate]
      have hlen := congrArg List.length hflat
      rw [List.length_append] at hlen
      simp only [Event.isGetPairs, Bool.false_eq_true, if_false]
      omega
  · intro hfast
    obtain ⟨subscriber, psp, dp, dps, w0, w1, added, hsub, hp, hdev, hsingle, hlen, hr, hP, ht,
      hs, hd⟩ := Process_fast p fuel w req h0 hfast
    refine ⟨psp, dps, w0, w1, hp, hsingle, hlen, hr, hP, ?_, ?_, ?_⟩
    · rw [resolutions_structural, ht, structural_append, hs, List.append_nil,
        ← resolutions_structural]
    · rw [ht, deliveries_append, hd]
    · intro hv
      have hrun : Process p fuel w req =
          Run.ok ⟨w.backend, w.db, w.ticks,
            w.trace ++ [Event.Log (LogLine.Debug req.Service req.Subscribers)]⟩ := by
        simp [Process, h0, hfast, pushToSingleDeliveryPoint, hsub, hp, hv, reportSingle]
      rw [hrun] at hP
      cases hP
      rfl

theorem Process_resolves_each_subscriber_once_witness :
    ∃ w1, Process sampleProcessor 1025 sampleWorld (sampleRequest (List.replicate 2000 "s")) =
        Run.ok w1 ∧
      resolutions w1.trace = 2000 := by
  obtain ⟨_, _, _, _, w1, -, -, -, -, hP, -, hres⟩ :=
    (Process_resolves_each_subscriber_once sampleProcessor 1025 sampleWorld
      (sampleRequest (List.replicate 2000 "s")) (by decide)).1
      (by simp only [fastPath, sampleRequest, Option.isSome_none, Bool.and_false])
      (by decide) (by decide)
  have hlen : (sampleRequest (List.replicate 2000 "s")).Subscribers.length = 2000 :=
    List.length_replicate _ _
  have hzero : resolutions sampleWorld.trace = 0 := rfl
  exact ⟨w1, hP, by rw [hres, hlen, hzero]⟩

/-- C6: on the general path, with a bound of at least one worker, `Process`
spawns at most `maxWorkers` workers; each of them gets exactly `N / maxWorkers`
subscribers; the `N mod maxWorkers` subscribers that remain are the slice from
the final position to the end, which is handed to `pushBulk` without a
completion channel exactly when it is not empty; the counter `nr_goroutines` is
the number of workers spawned, each worker sends one completion signal, and
`Process` receives as many signals as it spawned workers. -/
theorem Process_spawns_bounded_workers {β δ : Type} (p : PushProcessor β δ)
    (fuel : Nat) (w : World β δ) (req : Request) (h1 : 1 ≤ p.max_nr_gorountines)
    (hf : p.max_nr_gorountines < fuel) (hfast : fastPath req = false) :
    ∃ pos nr spawned rest w1 added,
      spawnLoop req.Subscribers
        ((req.Subscribers.length : Int) - Int.tmod req.Subscribers.length p.max_nr_gorountines)
        (Int.tdiv req.Subscribers.length p.max_nr_gorountines) fuel 0 0 [] =
          Run.ok (pos, nr, spawned) ∧
      (spawned.length : Int) ≤ p.max_nr_gorountines ∧
      (∀ c ∈ spawned,
        (c.subscribers.length : Int) = Int.tdiv req.Subscribers.length p.max_nr_gorountines) ∧
      goSlice req.Subscribers pos req.Subscribers.length = some rest ∧
      (rest.length : Int) = Int.tmod req.Subscribers.length p.max_nr_gorountines ∧
      (pos < req.Subscribers.length ↔ rest ≠ []) ∧
      nr = spawned.length ∧
      Process p fuel w req = Run.ok w1 ∧
      w1.trace = w.trace ++ added ∧
      structural added =
        (spawned.flatMap (fun c =>
            c.subscribers.map (Event.GetPairs req.Service) ++ [Event.FinishSend]) ++
          rest.map (Event.GetPairs req.Service)) ++
          List.replicate spawned.length Event.FinishRecv ∧
      added.countP Event.isFinishSend = spawned.length ∧
      added.countP Event.isFinishRecv = spawned.length := by
  obtain ⟨hdiv, hmod, hsum, hlt⟩ :=
    Process_arith req.Subscribers.length p.max_nr_gorountines h1
  have hle : req.Subscribers.length / p.max_nr_gorountines.toNat * p.max_nr_gorountines.toNat
      ≤ req.Subscribers.length := Nat.div_mul_le_self _ _
  obtain ⟨w1, added, hP, ht, hs⟩ := Process_general p fuel w req h1 hf hfast
  have hstruct : structural added =
      ((evenChunks req.Subscribers (req.Subscribers.length / p.max_nr_gorountines.toNat)
          (workerCount req.Subscribers.length p.max_nr_gorountines.toNat)).flatMap
        (fun c => c.subscribers.map (Event.GetPairs req.Service) ++ [Event.FinishSend]) ++
      (req.Subscribers.drop
          (req.Subscribers.length / p.max_nr_gorountines.toNat *
            p.max_nr_gorountines.toNat)).map (Event.GetPairs req.Service)) ++
      List.replicate (evenChunks req.Subscribers
          (req.Subscribers.length / p.max_nr_gorountines.toNat)
          (workerCount req.Subscribers.length p.max_nr_gorountines.toNat)).length
        Event.FinishRecv := by
    rw [hs, evenChunks_length]
  have hrest : (req.Subscribers.drop
      (req.Subscribers.length / p.max_nr_gorountines.toNat *
        p.max_nr_gorountines.toNat)).length = req.Subscribers.length % p.max_nr_gorountines.toNat := by
    rw [List.length_drop]
    omega
  refine ⟨_, _, _,
    req.Subscribers.drop
      (req.Subscribers.length / p.max_nr_gorountines.toNat * p.max_nr_gorountines.toNat), w1,
    added, spawnLoop_Process req.Subscribers p.max_nr_gorountines fuel h1 hf, ?_, ?_,
    goSlice_tail req.Subscribers _ hle, by rw [hmod, hrest], ?_, by rw [evenChunks_length],
    hP, ht, hstruct, ?_, ?_⟩
  · rw [evenChunks_length]
    have := workerCount_le req.Subscribers.length p.max_nr_gorountines.toNat
    omega
  · intro c hc
    obtain ⟨-, -, -, -, -, c6⟩ := evenChunks_mem req.Subscribers _ _
      (by rw [workerCount_mul]; exact hle) c hc
    rw [c6, hdiv]
  · rw [← List.length_pos, hrest]
    constructor
    · intro h
      have : req.Subscribers.length / p.max_nr_gorountines.toNat * p.max_nr_gorountines.toNat
          < req.Subscribers.length := by exact_mod_cast h
      omega
    · intro h
      have : req.Subscribers.length / p.max_nr_gorountines.toNat * p.max_nr_gorountines.toNat
          < req.Subscribers.length := by omega
      exact_mod_cast this
  · rw [finishSend_structural, hstruct, List.countP_append, List.countP_append,
      (count_workers req.Service _).2.1, (count_rest req.Service _).2.1, List.countP_replicate]
    simp [Event.isFinishSend]
  · rw [finishRecv_structural, hstruct, List.countP_append, List.countP_append,
      (count_workers req.Service _).2.2, (count_rest req.Service _).2.2, List.countP_replicate]
    simp [Event.isFinishRecv]

theorem Process_spawns_bounded_workers_witness :
    ∃ w1, Process twoWorkerProcessor 3 sampleWorld
        (sampleRequest ["a", "b", "c", "d", "e"]) = Run.ok w1 ∧
      w1.trace.countP Event.isFinishRecv = 2 := by
  obtain ⟨pos, nr, spawned, rest, w1, added, hloop, -, -, -, -, -, -, hP, ht, -, -, hrecv⟩ :=
    Process_spawns_bounded_workers twoWorkerProcessor 3 sampleWorld
      (sampleRequest ["a", "b", "c", "d", "e"]) (by decide) (by decide) (by decide)
  have hsp : spawned.length = 2 := by
    have h2 : spawnLoop ["a", "b", "c", "d", "e"] 4 2 3 0 0 [] = Run.ok (pos, nr, spawned) := hloop
    have h3 : spawnLoop ["a", "b", "c", "d", "e"] 4 2 3 0 0 [] =
        Run.ok (4, 2, [⟨0, 2, ["a", "b"]⟩, ⟨2, 4, ["c", "d"]⟩]) := by rfl
    rw [h3] at h2
    cases h2
    rfl
  refine ⟨w1, hP, ?_⟩
  rw [ht, List.countP_append, hrecv, hsp]
  rfl

/-! ## Theorems: the claims on push -/

theorem retryRequest_failures {β δ : Type} (p : PushProcessor β δ) (w : World β δ)
    (req : Request) (retryAfter : Int) (subscriber : String) (psp : Option PushServiceProvider)
    (dp : Option DeliveryPoint) :
    failures (retryRequest p w req retryAfter subscriber psp dp).trace = failures w.trace := by
  by_cases h : req.nrRetries < p.max_nr_retry
  · obtain ⟨t, ht, -⟩ := retryRequest_of_lt p w req retryAfter subscriber psp dp h
    rw [ht]
    simp [failures, Event.isPushFail]
  · rw [retryRequest_of_le p w req retryAfter subscriber psp dp (not_lt.mp h)]

theorem failures_append (a b : List Event) : failures (a ++ b) = failures a + failures b := by
  simp [failures]

theorem storeFailures_append (a b : List Event) :
    storeFailures (a ++ b) = storeFailures a + storeFailures b := by
  simp [storeFailures]

theorem refreshed_failures {β δ : Type} (p : PushProcessor β δ) (w : World β δ)
    (rpsp : Option PushServiceProvider) (rdp : Option DeliveryPoint) :
    (refreshed p w rpsp rdp).trace = w.trace ++
        ((match rpsp with
          | some x => [Event.ModifyPushServiceProvider x]
          | none => []) ++
         (match rdp with
          | some y => [Event.ModifyDeliveryPoint y]
          | none => [])) ∧
      failures (refreshLog service rpsp rdp) = 0 ∧
      failures (refreshed p w rpsp rdp).trace = failures w.trace := by
  cases rpsp <;> cases rdp <;> simp [refreshed, refreshLog, failures, Event.isPushFail]

theorem invoked_failures {β δ : Type} (p : PushProcessor β δ) (w : World β δ) (req : Request)
    (psp : PushServiceProvider) (dp : DeliveryPoint) :
    failures (invoked p w req psp dp).trace = failures w.trace := by
  simp [invoked, failures, Event.isPushFail]

theorem pushLoop_append {β δ : Type} (p : PushProcessor β δ) (req : Request)
    (service subscriber : String) (subid : Nat) :
    ∀ (xs ys : List PushServiceProviderDeliveryPointPair) (w : World β δ) (defers : List Event),
      pushLoop p req service subscriber subid (xs ++ ys) w defers =
        ((pushLoop p req service subscriber subid xs w defers).1 ++
          (pushLoop p req service subscriber subid ys
            (pushLoop p req service subscriber subid xs w defers).2.1
            (pushLoop p req service subscriber subid xs w defers).2.2).1,
         (pushLoop p req service subscriber subid ys
            (pushLoop p req service subscriber subid xs w defers).2.1
            (pushLoop p req service subscriber subid xs w defers).2.2).2) := by
  intro xs
  induction xs with
  | nil =>
    intro ys w defers
    simp [pushLoop]
  | cons x xs ih =>
    intro ys w defers
    rw [List.cons_append]
    show (_ :: (pushLoop p req service subscriber subid (xs ++ ys) _ _).1,
      (pushLoop p req service subscriber subid (xs ++ ys) _ _).2.1,
      (pushLoop p req service subscriber subid (xs ++ ys) _ _).2.2) = _
    rw [ih]
    rfl

theorem push_of_pairs {β δ : Type} (p : PushProcessor β δ) (w : World β δ) (req : Request)
    (service subscriber : String) (subid : Nat)
    (hne : (p.GetPushServiceProviderDeliveryPointPairs w.db service subscriber).1.1 ≠ []) :
    push p w req service subscriber subid =
      ((pushLoop p req service subscriber subid
          (p.GetPushServiceProviderDeliveryPointPairs w.db service subscriber).1.1
          (lookedUp p w req service subscriber) []).1,
       ⟨(pushLoop p req service subscriber subid
            (p.GetPushServiceProviderDeliveryPointPairs w.db service subscriber).1.1
            (lookedUp p w req service subscriber) []).2.1.backend,
        (pushLoop p req service subscriber subid
            (p.GetPushServiceProviderDeliveryPointPairs w.db service subscriber).1.1
            (lookedUp p w req service subscriber) []).2.1.db,
        (pushLoop p req service subscriber subid
            (p.GetPushServiceProviderDeliveryPointPairs w.db service subscriber).1.1
            (lookedUp p w req service subscriber) []).2.1.ticks,
        (pushLoop p req service subscriber subid
            (p.GetPushServiceProviderDeliveryPointPairs w.db service subscriber).1.1
            (lookedUp p w req service subscriber) []).2.1.trace ++
          (pushLoop p req service subscriber subid
            (p.GetPushServiceProviderDeliveryPointPairs w.db service subscriber).1.1
            (lookedUp p w req service subscriber) []).2.2⟩) := by
  rcases h : p.GetPushServiceProviderDeliveryPointPairs w.db service subscriber with
    ⟨⟨pairs, err⟩, db1⟩
  rw [h] at hne
  cases pairs with
  | nil => exact absurd rfl hne
  | cons x xs => cases err <;> simp [push, lookedUp, h]

theorem push_of_no_pairs {β δ : Type} (p : PushProcessor β δ) (w : World β δ) (req : Request)
    (service subscriber : String) (subid : Nat)
    (hnil : (p.GetPushServiceProviderDeliveryPointPairs w.db service subscriber).1.1 = []) :
    push p w req service subscriber subid = ([], lookedUp p w req service subscriber) := by
  rcases h : p.GetPushServiceProviderDeliveryPointPairs w.db service subscriber with
    ⟨⟨pairs, err⟩, db1⟩
  rw [h] at hnil
  subst hnil
  cases err <;> simp [push, lookedUp, h]

theorem disposes_of_pushBody {β δ : Type} (p : PushProcessor β δ) (w : World β δ)
    (req : Request) (service subscriber : String) (subid : Nat)
    (pre : List PushServiceProviderDeliveryPointPair) (psp : PushServiceProvider)
    (dp : DeliveryPoint) (post : List PushServiceProviderDeliveryPointPair)
    (wk : World β δ) (dk : List Event)
    (hstore : (p.GetPushServiceProviderDeliveryPointPairs w.db service subscriber).1.1 =
      pre ++ ⟨psp, dp⟩ :: post)
    (hk : (pushLoop p req service subscriber subid pre
      (lookedUp p w req service subscriber) []).2 = (wk, dk))
    (out : Option successPushLog) (after : World β δ) (D : List Event)
    (hbody : pushBody p req service subscriber subid ⟨psp, dp⟩ wk dk = (out, after, D ++ dk)) :
    disposes p w req service subscriber subid pre post out after D := by
  have hne : (p.GetPushServiceProviderDeliveryPointPairs w.db service subscriber).1.1 ≠ [] := by
    rw [hstore]
    simp
  have hwk : (pushLoop p req service subscriber subid pre
      (lookedUp p w req service subscriber) []).2.1 = wk := by rw [hk]
  have hdk : (pushLoop p req service subscriber subid pre
      (lookedUp p w req service subscriber) []).2.2 = dk := by rw [hk]
  obtain ⟨a, d, ht, hd, -, -, hc, -, -, hlen⟩ :=
    pushLoop_trace p req service subscriber subid post after (D ++ dk)
  refine ⟨(pushLoop p req service subscriber subid post after (D ++ dk)).1, a, d, ?_, hlen, ?_,
    hc, ?_, ?_, ?_⟩
  · rw [push_of_pairs p w req service subscriber subid hne, hstore, pushLoop_append]
    simp only [pushLoop, hwk, hdk, hbody]
  · rw [push_of_pairs p w req service subscriber subid hne, hstore, pushLoop_append]
    simp only [pushLoop, hwk, hdk, hbody]
    rw [ht, hd]
  · rw [hdk]
  · rw [hdk]
    exact ht
  · rw [hdk]
    exact hd

/-- C7: let the store return, for a subscriber, a pair whose provider has a
valid service type, after the pairs `pre` and before the pairs `post`, and let
`wk` be the world and `dk` the deferred calls of `push` when it comes to the
pair. `push` invokes the backend of the pair and disposes of its result
`(id, err)` so: no error, a success outcome `(dp, subid, id)`; a refresh error
without residual error, the store updates and a success outcome; a retry error,
direct or residual of a refresh, `retryRequest` with its delay, no outcome and
no failure event; any other error, direct or residual of a refresh, no outcome
and one failure event, which `push` emits when it returns. The store updates of
a refresh are the write of the provider if there is one, then the write of the
device if there is one. Whatever the disposition, `push` goes on with the pairs
`post`: it leaves one outcome slot for each of them and invokes the backend
once for each of them with a valid service type. -/
theorem push_disposes_backend_result {β δ : Type} (p : PushProcessor β δ) (w : World β δ)
    (req : Request) (service subscriber : String) (subid : Nat)
    (pre : List PushServiceProviderDeliveryPointPair) (psp : PushServiceProvider)
    (dp : DeliveryPoint) (post : List PushServiceProviderDeliveryPointPair)
    (wk : World β δ) (dk : List Event)
    (hstore : (p.GetPushServiceProviderDeliveryPointPairs w.db service subscriber).1.1 =
      pre ++ ⟨psp, dp⟩ :: post)
    (hk : (pushLoop p req service subscriber subid pre
      (lookedUp p w req service subscriber) []).2 = (wk, dk))
    (hv : psp.validServiceType = true) :
    ((p.pushers psp.serviceID wk.backend psp (some dp) req.Notification).1.2 = none →
      disposes p w req service subscriber subid pre post
        (some ⟨some dp, subid,
          (p.pushers psp.serviceID wk.backend psp (some dp) req.Notification).1.1⟩)
        (invoked p wk req psp dp) []) ∧
    (∀ rpsp rdp,
      (p.pushers psp.serviceID wk.backend psp (some dp) req.Notification).1.2 =
        some (Error.RefreshDataError rpsp rdp none) →
      disposes p w req service subscriber subid pre post
        (some ⟨some dp, subid,
          (p.pushers psp.serviceID wk.backend psp (some dp) req.Notification).1.1⟩)
        (refreshed p (invoked p wk req psp dp) rpsp rdp) (refreshLog service rpsp rdp)) ∧
    (∀ retryAfter,
      (p.pushers psp.serviceID wk.backend psp (some dp) req.Notification).1.2 =
        some (Error.RetryError retryAfter) →
      disposes p w req service subscriber subid pre post none
        (retryRequest p (invoked p wk req psp dp) req retryAfter subscriber (some psp) (some dp))
        [Event.Log (LogLine.PushRetry service subscriber dp.Name
          (Error.RetryError retryAfter))]) ∧
    (∀ rpsp rdp retryAfter,
      (p.pushers psp.serviceID wk.backend psp (some dp) req.Notification).1.2 =
        some (Error.RefreshDataError rpsp rdp (some (Error.RetryError retryAfter))) →
      disposes p w req service subscriber subid pre post none
        (retryRequest p (refreshed p (invoked p wk req psp dp) rpsp rdp) req retryAfter
          subscriber (some psp) (some dp))
        (Event.Log (LogLine.PushRetry service subscriber dp.Name (Error.RetryError retryAfter))
          :: refreshLog service rpsp rdp)) ∧
    (∀ e, e.isRetry = false → e.isRefresh = false →
      (p.pushers psp.serviceID wk.backend psp (some dp) req.Notification).1.2 = some e →
      disposes p w req service subscriber subid pre post none (invoked p wk req psp dp)
        [Event.PushFail req subscriber (some dp) e,
         Event.Log (LogLine.PushFail service subscriber dp.Name e)]) ∧
    (∀ rpsp rdp e, e.isRetry = false →
      (p.pushers psp.serviceID wk.backend psp (some dp) req.Notification).1.2 =
        some (Error.RefreshDataError rpsp rdp (some e)) →
      disposes p w req service subscriber subid pre post none
        (refreshed p (invoked p wk req psp dp) rpsp rdp)
        (Event.PushFail req subscriber (some dp) e ::
          Event.Log (LogLine.PushFail service subscriber dp.Name e) ::
            refreshLog service rpsp rdp)) ∧
    (∀ (w1 : World β δ) rpsp rdp,
      (refreshed p w1 rpsp rdp).trace = w1.trace ++
        ((match rpsp with
          | some x => [Event.ModifyPushServiceProvider x]
          | none => []) ++
         (match rdp with
          | some y => [Event.ModifyDeliveryPoint y]
          | none => [])) ∧
      failures (refreshLog service rpsp rdp) = 0 ∧
      failures (refreshed p w1 rpsp rdp).trace = failures w1.trace) ∧
    failures (invoked p wk req psp dp).trace = failures wk.trace ∧
    (∀ (w1 : World β δ) retryAfter,
      failures (retryRequest p w1 req retryAfter subscriber (some psp) (some dp)).trace =
        failures w1.trace) ∧
    (pushLoop p req service subscriber subid pre
      (lookedUp p w req service subscriber) []).1.length = pre.length ∧
    (push p w req service subscriber subid).1.length = pre.length + 1 + post.length := by
  refine ⟨?_, ?_, ?_, ?_, ?_, ?_, fun w1 rpsp rdp => refreshed_failures p w1 rpsp rdp,
    invoked_failures p wk req psp dp,
    fun w1 n => retryRequest_failures p w1 req n subscriber (some psp) (some dp), ?_, ?_⟩
  · intro hr
    exact disposes_of_pushBody p w req service subscriber subid pre psp dp post wk dk hstore hk
      _ _ [] (pushBody_success p req service subscriber subid psp dp wk dk hv hr)
  · intro rpsp rdp hr
    exact disposes_of_pushBody p w req service subscriber subid pre psp dp post wk dk hstore hk
      _ _ _ (pushBody_refresh_success p req service subscriber subid psp dp wk dk hv rpsp rdp hr)
  · intro n hr
    exact disposes_of_pushBody p w req service subscriber subid pre psp dp post wk dk hstore hk
      _ _ _ (pushBody_retry p req service subscriber subid psp dp wk dk hv n hr)
  · intro rpsp rdp n hr
    exact disposes_of_pushBody p w req service subscriber subid pre psp dp post wk dk hstore hk
      _ _ _ (pushBody_refresh_retry p req service subscriber subid psp dp wk dk hv rpsp rdp n hr)
  · intro e h1 h2 hr
    exact disposes_of_pushBody p w req service subscriber subid pre psp dp post wk dk hstore hk
      _ _ _ (pushBody_other p req service subscriber subid psp dp wk dk hv e h1 h2 hr)
  · intro rpsp rdp e h1 hr
    exact disposes_of_pushBody p w req service subscriber subid pre psp dp post wk dk hstore hk
      _ _ _ (pushBody_refresh_other p req service subscriber subid psp dp wk dk hv rpsp rdp e
        h1 hr)
  · obtain ⟨-, -, -, -, -, -, -, -, -, hlen⟩ :=
      pushLoop_trace p req service subscriber subid pre (lookedUp p w req service subscriber) []
    exact hlen
  · have hne : (p.GetPushServiceProviderDeliveryPointPairs w.db service subscriber).1.1 ≠ [] := by
      rw [hstore]
      simp
    obtain ⟨-, -, -, -, -, -, -, -, -, hlen⟩ :=
      pushLoop_trace p req service subscriber subid (pre ++ ⟨psp, dp⟩ :: post)
        (lookedUp p w req service subscriber) []
    rw [push_of_pairs p w req service subscriber subid hne, hstore]
    simp only [hlen, List.length_append, List.length_cons]
    omega

theorem push_rejected_delivery_trace :
    push rejectingProcessor sampleWorld (sampleRequest ["a"]) "service" "a" 0 =
      ([none],
       { sampleWorld with trace :=
          [Event.GetPairs "service" "a",
           Event.Push sampleProvider (some sampleDevice) (sampleRequest ["a"]).Notification,
           Event.PushFail (sampleRequest ["a"]) "a" (some sampleDevice) (Error.Other "rejected"),
           Event.Log (LogLine.PushFail "service" "a" "device" (Error.Other "rejected"))] }) ∧
    failures (push rejectingProcessor sampleWorld (sampleRequest ["a"]) "service" "a"
      0).2.trace = 1 :=
  ⟨rfl, rfl⟩

theorem push_disposes_backend_result_witness :
    disposes sampleProcessor sampleWorld (sampleRequest ["a"]) "service" "a" 0 [] []
      (some ⟨some sampleDevice, 0, "m1"⟩)
      (invoked sampleProcessor (lookedUp sampleProcessor sampleWorld (sampleRequest ["a"])
        "service" "a") (sampleRequest ["a"]) sampleProvider sampleDevice) [] :=
  (push_disposes_backend_result sampleProcessor sampleWorld (sampleRequest ["a"]) "service" "a" 0
    [] sampleProvider sampleDevice []
    (lookedUp sampleProcessor sampleWorld (sampleRequest ["a"]) "service" "a") []
    rfl rfl rfl).1 rfl

/-- C9 as stated fails: when the store answers a lookup with an error together
with a pair, `push` reports the failure and then delivers to the pair all the
same, so that a backend is invoked for the subscriber. -/
theorem push_store_error_with_pairs_invokes_backend :
    (faultyStoreProcessor.GetPushServiceProviderDeliveryPointPairs sampleWorld.db "service"
        "a").1.2 = some (Error.Other "store unreachable") ∧
    (push faultyStoreProcessor sampleWorld (sampleRequest ["a"]) "service" "a" 0).2.trace =
      [Event.GetPairs "service" "a",
       Event.Log (LogLine.PushFailDatabaseError "service" "a" (Error.Other "store unreachable")),
       Event.PushFail (sampleRequest ["a"]) "a" none (Error.Other "store unreachable"),
       Event.Push sampleProvider (some sampleDevice) (sampleRequest ["a"]).Notification] ∧
    deliveries (push faultyStoreProcessor sampleWorld (sampleRequest ["a"]) "service" "a"
        0).2.trace = 1 :=
  ⟨rfl, rfl, rfl⟩

theorem storeFailures_eq_zero (d : List Event) (h : ∀ e ∈ d, e.isStoreFail = false) :
    storeFailures d = 0 := by
  unfold storeFailures
  rw [List.countP_eq_zero]
  intro e he
  simp [h e he]

theorem retryRequest_storeFailures {β δ : Type} (p : PushProcessor β δ) (w : World β δ)
    (req : Request) (retryAfter : Int) (subscriber : String) (psp : Option PushServiceProvider)
    (dp : Option DeliveryPoint) :
    storeFailures (retryRequest p w req retryAfter subscriber psp dp).trace =
      storeFailures w.trace := by
  by_cases h : req.nrRetries < p.max_nr_retry
  · obtain ⟨t, ht, -⟩ := retryRequest_of_lt p w req retryAfter subscriber psp dp h
    rw [ht]
    simp [storeFailures, Event.isStoreFail]
  · rw [retryRequest_of_le p w req retryAfter subscriber psp dp (not_lt.mp h)]

theorem refreshed_storeFailures {β δ : Type} (p : PushProcessor β δ) (w : World β δ)
    (rpsp : Option PushServiceProvider) (rdp : Option DeliveryPoint) :
    storeFailures (refreshed p w rpsp rdp).trace = storeFailures w.trace := by
  cases rpsp <;> cases rdp <;> simp [refreshed, storeFailures, Event.isStoreFail]

theorem pushBody_storeFailures {β δ : Type} (p : PushProcessor β δ) (req : Request)
    (service subscriber : String) (subid : Nat) (pdpair : PushServiceProviderDeliveryPointPair)
    (w : World β δ) (defers : List Event) :
    storeFailures (pushBody p req service subscriber subid pdpair w defers).2.1.trace =
        storeFailures w.trace ∧
      storeFailures (pushBody p req service subscriber subid pdpair w defers).2.2 =
        storeFailures defers := by
  obtain ⟨psp, dp⟩ := pdpair
  rcases pushBody_shape p req service subscriber subid psp dp w.backend with
    ⟨-, h⟩ | ⟨-, out, rpsp, rdp, retry, d, h, -, hdp⟩
  · rw [h w defers]
    exact ⟨rfl, rfl⟩
  · rw [h w defers rfl]
    have hinv : storeFailures (invoked p w req psp dp).trace = storeFailures w.trace := by
      simp [invoked, storeFailures, Event.isStoreFail]
    refine ⟨?_, ?_⟩
    · cases retry with
      | none =>
        show storeFailures (refreshed p (invoked p w req psp dp) rpsp rdp).trace = _
        rw [refreshed_storeFailures, hinv]
      | some n =>
        show storeFailures (retryRequest p (refreshed p (invoked p w req psp dp) rpsp rdp) req n
          subscriber (some psp) (some dp)).trace = _
        rw [retryRequest_storeFailures, refreshed_storeFailures, hinv]
    · show storeFailures (d ++ defers) = _
      rw [storeFailures_append, storeFailures_eq_zero d (fun e he => (hdp e he).2.2.2),
        Nat.zero_add]

theorem pushLoop_storeFailures {β δ : Type} (p : PushProcessor β δ) (req : Request)
    (service subscriber : String) (subid : Nat) :
    ∀ (pairs : List PushServiceProviderDeliveryPointPair) (w : World β δ) (defers : List Event),
      storeFailures (pushLoop p req service subscriber subid pairs w defers).2.1.trace =
          storeFailures w.trace ∧
        storeFailures (pushLoop p req service subscriber subid pairs w defers).2.2 =
          storeFailures defers := by
  intro pairs
  induction pairs with
  | nil =>
    intro w defers
    exact ⟨rfl, rfl⟩
  | cons pdpair rest ih =>
    intro w defers
    obtain ⟨h1, h2⟩ := pushBody_storeFailures p req service subscriber subid pdpair w defers
    obtain ⟨h3, h4⟩ := ih (pushBody p req service subscriber subid pdpair w defers).2.1
      (pushBody p req service subscriber subid pdpair w defers).2.2
    exact ⟨by simp only [pushLoop]; rw [h3, h1], by simp only [pushLoop]; rw [h4, h2]⟩

/-- C9, amended: when the store answers the lookup of a subscriber with an
error, whatever pair list accompanies the error, `push` reports at once exactly
one failure event without a device, for that subscriber and with that error,
and `pushBulk` goes on with the subscribers that remain, each of which is
looked up. The pair resolution of the subscriber halts when no pair accompanies
the error: `push` then has no further effect (no backend is invoked, no retry
is submitted) and returns no outcome. Pairs that accompany the error are
delivered to: there is one outcome slot for each, and one backend invocation
for each with a valid service type. -/
theorem push_store_error_reported_once {β δ : Type} (p : PushProcessor β δ)
    (w : World β δ) (req : Request) (service subscriber : String) (subid : Nat) (e : Error)
    (pairs : List PushServiceProviderDeliveryPointPair) (db1 : δ) (others : List String)
    (dps : List (Option successPushLog))
    (h : p.GetPushServiceProviderDeliveryPointPairs w.db service subscriber =
      ((pairs, some e), db1)) :
    ∃ rest,
      (push p w req service subscriber subid).2.trace =
        w.trace ++
          [Event.GetPairs service subscriber,
           Event.Log (LogLine.PushFailDatabaseError service subscriber e),
           Event.PushFail req subscriber none e] ++ rest ∧
      storeFailures rest = 0 ∧
      storeFailures (push p w req service subscriber subid).2.trace = storeFailures w.trace + 1 ∧
      resolutions rest = 0 ∧
      deliveries rest = pairs.countP (fun x => x.PushServiceProvider.validServiceType) ∧
      (push p w req service subscriber subid).1.length = pairs.length ∧
      (pairs = [] →
        rest = [] ∧ (push p w req service subscriber subid).1 = [] ∧
        (push p w req service subscriber subid).2.db = db1 ∧
        (push p w req service subscriber subid).2.backend = w.backend ∧
        deliveries (push p w req service subscriber subid).2.trace = deliveries w.trace ∧
        submitted (push p w req service subscriber subid).2.trace = submitted w.trace) ∧
      pushBulkLoop p req service (subscriber :: others) subid w dps =
        pushBulkLoop p req service others (subid + 1) (push p w req service subscriber subid).2
          (dps ++ (push p w req service subscriber subid).1) ∧
      resolutions (pushBulkLoop p req service (subscriber :: others) subid w dps).2.trace =
        resolutions w.trace + 1 + others.length := by
  have hlook : (lookedUp p w req service subscriber).trace =
      w.trace ++
        [Event.GetPairs service subscriber,
         Event.Log (LogLine.PushFailDatabaseError service subscriber e),
         Event.PushFail req subscriber none e] := by
    simp [lookedUp, h]
  have hbulk : resolutions
      (pushBulkLoop p req service (subscriber :: others) subid w dps).2.trace =
      resolutions w.trace + 1 + others.length := by
    obtain ⟨added, ht, hs, -⟩ :=
      pushBulkLoop_trace p req service (subscriber :: others) subid w dps
    rw [resolutions_structural, ht, structural_append, hs, List.countP_append,
      ← resolutions_structural, (count_rest service _).1, List.length_cons]
    omega
  have hpre : storeFailures
      (w.trace ++
        [Event.GetPairs service subscriber,
         Event.Log (LogLine.PushFailDatabaseError service subscriber e),
         Event.PushFail req subscriber none e]) = storeFailures w.trace + 1 := by
    rw [storeFailures_append]
    rfl
  cases pairs with
  | nil =>
    have hpush := push_of_no_pairs p w req service subscriber subid (by rw [h])
    refine ⟨[], ?_, rfl, ?_, rfl, rfl, ?_, ?_, rfl, hbulk⟩
    · rw [hpush, hlook, List.append_nil]
    · rw [hpush, hlook, hpre]
    · rw [hpush]
      rfl
    · intro _
      refine ⟨rfl, by rw [hpush], ?_, ?_, ?_, ?_⟩
      · rw [hpush]
        simp [lookedUp, h]
      · rw [hpush]
        rfl
      · rw [hpush, hlook, deliveries_append]
        rfl
      · rw [hpush, hlook, submitted_append]
        simp [submitted]
  | cons x xs =>
    have hpush := push_of_pairs p w req service subscriber subid (by rw [h]; simp)
    rw [h] at hpush
    obtain ⟨a, d, ht, hd, hs, hsd, hc, hcd, -, hlen⟩ :=
      pushLoop_trace p req service subscriber subid (x :: xs)
        (lookedUp p w req service subscriber) []
    obtain ⟨hf1, hf2⟩ := pushLoop_storeFailures p req service subscriber subid (x :: xs)
      (lookedUp p w req service subscriber) []
    have htrace : (push p w req service subscriber subid).2.trace =
        w.trace ++
          [Event.GetPairs service subscriber,
           Event.Log (LogLine.PushFailDatabaseError service subscriber e),
           Event.PushFail req subscriber none e] ++ (a ++ d) := by
      rw [hpush]
      show (pushLoop p req service subscriber subid (x :: xs)
          (lookedUp p w req service subscriber) []).2.1.trace ++
        (pushLoop p req service subscriber subid (x :: xs)
          (lookedUp p w req service subscriber) []).2.2 = _
      rw [ht, hd, hlook]
      simp
    have hzero : storeFailures (a ++ d) = 0 := by
      have h1 : storeFailures ((lookedUp p w req service subscriber).trace ++ a) =
          storeFailures (lookedUp p w req service subscriber).trace := by rw [← ht, hf1]
      have h2 : storeFailures (d ++ []) = storeFailures ([] : List Event) := by rw [← hd, hf2]
      rw [storeFailures_append] at h1
      rw [List.append_nil] at h2
      rw [storeFailures_append, h2]
      have h3 : storeFailures ([] : List Event) = 0 := rfl
      omega
    refine ⟨a ++ d, htrace, hzero, ?_, ?_, ?_, ?_, ?_, rfl, hbulk⟩
    · rw [htrace, storeFailures_append, hpre, hzero]
    · rw [resolutions_structural, structural_append, hs, hsd]
      rfl
    · rw [deliveries_append, hc, hcd, Nat.add_zero]
    · rw [hpush]
      exact hlen
    · intro hnil
      cases hnil

theorem push_store_error_reported_once_witness :
    ∃ rest,
      (push failingStoreProcessor sampleWorld (sampleRequest ["a", "b"]) "service" "a"
          0).2.trace =
        sampleWorld.trace ++
          [Event.GetPairs "service" "a",
           Event.Log (LogLine.PushFailDatabaseError "service" "a"
             (Error.Other "store unreachable")),
           Event.PushFail (sampleRequest ["a", "b"]) "a" none
             (Error.Other "store unreachable")] ++ rest ∧
      storeFailures rest = 0 := by
  obtain ⟨rest, h1, h2, -⟩ :=
    push_store_error_reported_once failingStoreProcessor sampleWorld (sampleRequest ["a", "b"])
      "service" "a" 0 (Error.Other "store unreachable") [] () ["b"] [] rfl
  exact ⟨rest, h1, h2⟩

/-! ## Theorems: the retry counts of the submitted tasks -/

theorem capped_append {β δ : Type} (p : PushProcessor β δ) (a b : List Event)
    (ha : capped p a) (hb : capped p b) : capped p (a ++ b) := by
  intro t ht
  rw [submitted_append] at ht
  rcases List.mem_append.mp ht with h | h
  · exact ha t h
  · exact hb t h

theorem submitted_eq_nil (d : List Event) (h : ∀ e ∈ d, e.isSubmit = false) :
    submitted d = [] := by
  induction d with
  | nil => rfl
  | cons e es ih =>
    have he := h e (List.mem_cons_self _ _)
    have hes := ih (fun x hx => h x (List.mem_cons_of_mem _ hx))
    cases e <;> simp_all [submitted, Event.isSubmit]

theorem capped_of_no_submit {β δ : Type} (p : PushProcessor β δ) (d : List Event)
    (h : ∀ e ∈ d, e.isSubmit = false) : capped p d := by
  intro t ht
  rw [submitted_eq_nil d h] at ht
  cases ht

theorem retryRequest_capped {β δ : Type} (p : PushProcessor β δ) (w : World β δ)
    (req : Request) (retryAfter : Int) (subscriber : String) (psp : Option PushServiceProvider)
    (dp : Option DeliveryPoint) (hw : capped p w.trace) :
    capped p (retryRequest p w req retryAfter subscriber psp dp).trace := by
  by_cases h : req.nrRetries < p.max_nr_retry
  · obtain ⟨t, ht, hn, -⟩ := retryRequest_of_lt p w req retryAfter subscriber psp dp h
    rw [ht]
    refine capped_append p _ _ hw ?_
    intro task htask
    simp only [submitted, List.mem_singleton] at htask
    subst htask
    omega
  · rw [retryRequest_of_le p w req retryAfter subscriber psp dp (not_lt.mp h)]
    exact hw

theorem refreshed_capped {β δ : Type} (p : PushProcessor β δ) (w : World β δ)
    (rpsp : Option PushServiceProvider) (rdp : Option DeliveryPoint) (hw : capped p w.trace) :
    capped p (refreshed p w rpsp rdp).trace := by
  cases rpsp <;> cases rdp <;>
    first
    | exact hw
    | exact capped_append p _ _ hw (capped_of_no_submit p _ (by simp [Event.isSubmit]))
    | exact capped_append p _ _ (capped_append p _ _ hw
        (capped_of_no_submit p _ (by simp [Event.isSubmit])))
        (capped_of_no_submit p _ (by simp [Event.isSubmit]))

theorem pushBody_capped {β δ : Type} (p : PushProcessor β δ) (req : Request)
    (service subscriber : String) (subid : Nat) (pdpair : PushServiceProviderDeliveryPointPair)
    (w : World β δ) (defers : List Event) (hw : capped p w.trace) (hd : capped p defers) :
    capped p (pushBody p req service subscriber subid pdpair w defers).2.1.trace ∧
      capped p (pushBody p req service subscriber subid pdpair w defers).2.2 := by
  obtain ⟨psp, dp⟩ := pdpair
  rcases pushBody_shape p req service subscriber subid psp dp w.backend with
    ⟨-, h⟩ | ⟨-, out, rpsp, rdp, retry, d, h, -, hdp⟩
  · rw [h w defers]
    exact ⟨hw, hd⟩
  · rw [h w defers rfl]
    have hinv : capped p (invoked p w req psp dp).trace :=
      capped_append p _ _ hw (capped_of_no_submit p _ (by simp [Event.isSubmit]))
    have href := refreshed_capped p (invoked p w req psp dp) rpsp rdp hinv
    refine ⟨?_, capped_append p _ _ (capped_of_no_submit p d (fun e he => (hdp e he).2.2.1)) hd⟩
    cases retry with
    | none => exact href
    | some n => exact retryRequest_capped p _ req n subscriber (some psp) (some dp) href

theorem pushLoop_capped {β δ : Type} (p : PushProcessor β δ) (req : Request)
    (service subscriber : String) (subid : Nat) :
    ∀ (pairs : List PushServiceProviderDeliveryPointPair) (w : World β δ) (defers : List Event),
      capped p w.trace → capped p defers →
      capped p (pushLoop p req service subscriber subid pairs w defers).2.1.trace ∧
        capped p (pushLoop p req service subscriber subid pairs w defers).2.2 := by
  intro pairs
  induction pairs with
  | nil =>
    intro w defers hw hd
    exact ⟨hw, hd⟩
  | cons pdpair rest ih =>
    intro w defers hw hd
    obtain ⟨h1, h2⟩ := pushBody_capped p req service subscriber subid pdpair w defers hw hd
    exact ih _ _ h1 h2

theorem push_capped {β δ : Type} (p : PushProcessor β δ) (w : World β δ) (req : Request)
    (service subscriber : String) (subid : Nat) (hw : capped p w.trace) :
    capped p (push p w req service subscriber subid).2.trace := by
  rcases h : p.GetPushServiceProviderDeliveryPointPairs w.db service subscriber with
    ⟨⟨pairs, err⟩, db1⟩
  have key : ∀ (w2 : World β δ), capped p w2.trace →
      capped p
        (if pairs.length ≤ 0 then (([] : List (Option successPushLog)), w2)
         else ((pushLoop p req service subscriber subid pairs w2 []).1,
           { (pushLoop p req service subscriber subid pairs w2 []).2.1 with
             trace := (pushLoop p req service subscriber subid pairs w2 []).2.1.trace ++
               (pushLoop p req service subscriber subid pairs w2 []).2.2 })).2.trace := by
    intro w2 hw2
    split
    · exact hw2
    · obtain ⟨h1, h2⟩ := pushLoop_capped p req service subscriber subid pairs w2 [] hw2
        (capped_of_no_submit p [] (by simp))
      exact capped_append p _ _ h1 h2
  unfold push
  rw [h]
  cases err with
  | none =>
    exact key _ (capped_append p _ _ hw (capped_of_no_submit p _ (by simp [Event.isSubmit])))
  | some e =>
    exact key _ (capped_append p _ _
      (capped_append p _ _ hw (capped_of_no_submit p _ (by simp [Event.isSubmit])))
      (capped_of_no_submit p _ (by simp [Event.isSubmit])))

theorem pushBulkLoop_capped {β δ : Type} (p : PushProcessor β δ) (req : Request)
    (service : String) :
    ∀ (subscribers : List String) (i : Nat) (w : World β δ) (dps : List (Option successPushLog)),
      capped p w.trace → capped p (pushBulkLoop p req service subscribers i w dps).2.trace := by
  intro subscribers
  induction subscribers with
  | nil =>
    intro i w dps hw
    exact hw
  | cons sub rest ih =>
    intro i w dps hw
    exact ih _ _ _ (push_capped p w req service sub i hw)

theorem pushBulkReport_capped {β δ : Type} (p : PushProcessor β δ) (req : Request)
    (service : String) (subscribers : List String) :
    ∀ (dps : List (Option successPushLog)) (w w1 : World β δ),
      pushBulkReport req service subscribers dps w = Run.ok w1 → capped p w.trace →
      capped p w1.trace := by
  intro dps
  induction dps with
  | nil =>
    intro w w1 h hw
    simp only [pushBulkReport, Run.ok.injEq] at h
    subst h
    exact hw
  | cons o rest ih =>
    intro w w1 h hw
    cases o with
    | none => exact ih w w1 (by simpa only [pushBulkReport] using h) hw
    | some pushlog =>
      simp only [pushBulkReport] at h
      cases hsub : subscribers[pushlog.subid]? with
      | none => simp [hsub] at h
      | some sub =>
        cases hdp : pushlog.dp with
        | none => simp [hsub, hdp] at h
        | some dp =>
          simp only [hsub, hdp] at h
          exact ih _ w1 h
            (capped_append p _ _ hw (capped_of_no_submit p _ (by simp [Event.isSubmit])))

theorem pushBulk_capped {β δ : Type} (p : PushProcessor β δ) (w w1 : World β δ) (req : Request)
    (service : String) (subscribers : List String) (finish : Bool)
    (h : pushBulk p w req service subscribers finish = Run.ok w1) (hw : capped p w.trace) :
    capped p w1.trace := by
  unfold pushBulk at h
  cases hr : pushBulkReport req service subscribers
      (pushBulkLoop p req service subscribers 0 w []).1
      (pushBulkLoop p req service subscribers 0 w []).2 with
  | panic => simp [hr] at h
  | timeout => simp [hr] at h
  | ok w2 =>
    have hw2 := pushBulkReport_capped p req service subscribers _ _ w2 hr
      (pushBulkLoop_capped p req service subscribers 0 w [] hw)
    simp only [hr] at h
    cases finish with
    | false =>
      simp only [Bool.false_eq_true, if_false, Run.ok.injEq] at h
      subst h
      exact hw2
    | true =>
      simp only [if_true, Run.ok.injEq] at h
      subst h
      exact capped_append p _ _ hw2 (capped_of_no_submit p _ (by simp [Event.isSubmit]))

theorem runWorkers_capped {β δ : Type} (p : PushProcessor β δ) (req : Request) :
    ∀ (chunks : List Chunk) (w w1 : World β δ),
      runWorkers p req chunks w = Run.ok w1 → capped p w.trace → capped p w1.trace := by
  intro chunks
  induction chunks with
  | nil =>
    intro w w1 h hw
    simp only [runWorkers, Run.ok.injEq] at h
    subst h
    exact hw
  | cons c cs ih =>
    intro w w1 h hw
    simp only [runWorkers] at h
    cases hr : pushBulk p w req req.Service c.subscribers true with
    | panic => simp [hr] at h
    | timeout => simp [hr] at h
    | ok w2 =>
      simp only [hr] at h
      exact ih w2 w1 h (pushBulk_capped p w w2 req req.Service c.subscribers true hr hw)

theorem reportSingle_capped {β δ : Type} (p : PushProcessor β δ) (req : Request) :
    ∀ (dps : List (Option successPushLog)) (w w1 : World β δ),
      reportSingle req dps w = Run.ok w1 → capped p w.trace → capped p w1.trace := by
  intro dps
  induction dps with
  | nil =>
    intro w w1 h hw
    simp only [reportSingle, Run.ok.injEq] at h
    subst h
    exact hw
  | cons o rest ih =>
    intro w w1 h hw
    cases o with
    | none => exact ih w w1 (by simpa only [reportSingle] using h) hw
    | some pushlog =>
      simp only [reportSingle] at h
      cases hsub : req.Subscribers[0]? with
      | none => simp [hsub] at h
      | some sub =>
        cases hdp : pushlog.dp with
        | none => simp [hsub, hdp] at h
        | some dp =>
          simp only [hsub, hdp] at h
          exact ih _ w1 h
            (capped_append p _ _ hw (capped_of_no_submit p _ (by simp [Event.isSubmit])))

theorem Process_capped {β δ : Type} (p : PushProcessor β δ) (fuel : Nat) (w w1 : World β δ)
    (req : Request) (h : Process p fuel w req = Run.ok w1) (hw : capped p w.trace) :
    capped p w1.trace := by
  have hw0 : capped p (w.trace ++ [Event.Log (LogLine.Debug req.Service req.Subscribers)]) :=
    capped_append p _ _ hw (capped_of_no_submit p _ (by simp [Event.isSubmit]))
  unfold Process at h
  by_cases h0 : p.max_nr_gorountines = 0
  · simp [h0] at h
  · simp only [if_neg h0] at h
    cases hfast : fastPath req with
    | true =>
      simp only [hfast, if_true] at h
      have hf := hfast
      simp only [fastPath, Bool.and_eq_true, decide_eq_true_eq, Option.isSome_iff_exists] at hf
      obtain ⟨⟨hlen, psp, hp⟩, dp, hd⟩ := hf
      obtain ⟨subscriber, hs⟩ := List.length_eq_one.mp hlen
      rw [pushToSingleDeliveryPoint_eq_pushBody p _ req subscriber [] psp dp hs hp hd] at h
      obtain ⟨h1, h2⟩ := pushBody_capped p req req.Service subscriber 0 ⟨psp, dp⟩
        ⟨w.backend, w.db, w.ticks,
          w.trace ++ [Event.Log (LogLine.Debug req.Service req.Subscribers)]⟩ [] hw0
        (capped_of_no_submit p [] (by simp))
      exact reportSingle_capped p req _ _ w1 h (capped_append p _ _ h1 h2)
    | false =>
      simp only [hfast, Bool.false_eq_true, if_false] at h
      cases hloop : spawnLoop req.Subscribers
          ((req.Subscribers.length : Int) - Int.tmod req.Subscribers.length p.max_nr_gorountines)
          (Int.tdiv req.Subscribers.length p.max_nr_gorountines) fuel 0 0 [] with
      | panic => simp [hloop] at h
      | timeout => simp [hloop] at h
      | ok r =>
        obtain ⟨pos, nr, spawned⟩ := r
        simp only [hloop] at h
        cases hrun : runWorkers p req spawned
            ⟨w.backend, w.db, w.ticks,
              w.trace ++ [Event.Log (LogLine.Debug req.Service req.Subscribers)]⟩ with
        | panic => simp [hrun] at h
        | timeout => simp [hrun] at h
        | ok w2 =>
          have hw2 := runWorkers_capped p req spawned _ w2 hrun hw0
          simp only [hrun] at h
          by_cases hpos : pos < (req.Subscribers.length : Int)
          · simp only [if_pos hpos] at h
            cases hsl : goSlice req.Subscribers pos req.Subscribers.length with
            | none => simp [hsl] at h
            | some c =>
              simp only [hsl] at h
              cases hb : pushBulk p w2 req req.Service c false with
              | panic => simp [hb] at h
              | timeout => simp [hb] at h
              | ok w3 =>
                simp only [hb, Run.ok.injEq] at h
                subst h
                exact capped_append p _ _ (pushBulk_capped p w2 w3 req req.Service c false hb hw2)
                  (capped_of_no_submit p _ (by simp [Event.isSubmit]))
          · simp only [if_neg hpos, Run.ok.injEq] at h
            subst h
            exact capped_append p _ _ hw2 (capped_of_no_submit p _ (by simp [Event.isSubmit]))

/-! ## Theorems: the claim on the retry cap -/

/-- C2: `retryRequest` leaves the world as it is (nothing is submitted, nothing
else happens) when the retry count of the request is at least the maximum;
otherwise it submits exactly one task, whose request has a retry count at most
the maximum. In a chain from a fresh request, the first `m` retries are
submitted, with retry counts 1 to `m`, and the retry after them is dropped,
`m` being the maximum. A run of `Process` keeps the retry count of every
request submitted to the scheduler at most the maximum. -/
theorem retryRequest_cap {β δ : Type} (p : PushProcessor β δ) (w : World β δ) (req : Request)
    (retryAfter : Int) (subscriber : String) (psp : Option PushServiceProvider)
    (dp : Option DeliveryPoint) (delays : Nat → Int) (w0 : World β δ) (r0 : Request) (m : Nat)
    (hm : p.max_nr_retry = m) (h0 : r0.nrRetries = 0) :
    (p.max_nr_retry ≤ req.nrRetries →
      retryRequest p w req retryAfter subscriber psp dp = w) ∧
    (req.nrRetries < p.max_nr_retry →
      ∃ t : retryPushTask,
        retryRequest p w req retryAfter subscriber psp dp =
          { w with ticks := w.ticks + 2, trace := w.trace ++ [Event.Submit t] } ∧
        submitted (retryRequest p w req retryAfter subscriber psp dp).trace =
          submitted w.trace ++ [t] ∧
        t.req.nrRetries = req.nrRetries + 1 ∧ t.req.nrRetries ≤ p.max_nr_retry) ∧
    (∀ k : Nat, k ≤ m →
      ∃ wk rk, retryChain p delays subscriber psp dp w0 r0 k = some (wk, rk) ∧
        rk.nrRetries = k) ∧
    retryChain p delays subscriber psp dp w0 r0 (m + 1) = none ∧
    (∀ (fuel : Nat) (v v1 : World β δ) (r : Request),
      Process p fuel v r = Run.ok v1 → capped p v.trace → capped p v1.trace) := by
  refine ⟨retryRequest_of_le p w req retryAfter subscriber psp dp, ?_, ?_, ?_,
    fun fuel v v1 r h hv => Process_capped p fuel v v1 r h hv⟩
  · intro h
    obtain ⟨t, ht, hn, -⟩ := retryRequest_of_lt p w req retryAfter subscriber psp dp h
    refine ⟨t, ht, ?_, hn, by omega⟩
    rw [ht]
    simp [submitted_append, submitted]
  · intro k hk
    exact retryChain_count p delays subscriber psp dp w0 r0 h0 k (by rw [hm]; exact_mod_cast hk)
  · obtain ⟨wm, rm, hc, hn⟩ :=
      retryChain_count p delays subscriber psp dp w0 r0 h0 m (by rw [hm])
    exact retryChain_stop p delays subscriber psp dp w0 r0 m wm rm hc (by rw [hn, hm])

theorem retryRequest_cap_witness :
    (retryRequest sampleProcessor sampleWorld
        { sampleRequest ["a"] with nrRetries := 3 } 10 "a" none none = sampleWorld) ∧
    retryChain sampleProcessor (fun _ => 10) "a" none none sampleWorld (sampleRequest ["a"]) 4
      = none :=
  have h := retryRequest_cap sampleProcessor sampleWorld { sampleRequest ["a"] with nrRetries := 3 }
    10 "a" none none (fun _ => 10) sampleWorld (sampleRequest ["a"]) 3 rfl rfl
  ⟨h.1 (by decide), h.2.2.2.1⟩

/-! ## Theorems: the fast path against push -/

theorem retryRequest_frame {β δ : Type} (p : PushProcessor β δ) (x y : World β δ)
    (req : Request) (retryAfter : Int) (subscriber : String) (psp : Option PushServiceProvider)
    (dp : Option DeliveryPoint) (ht : x.ticks = y.ticks) :
    ∃ a,
      (retryRequest p x req retryAfter subscriber psp dp).trace = x.trace ++ a ∧
      (retryRequest p y req retryAfter subscriber psp dp).trace = y.trace ++ a ∧
      (retryRequest p x req retryAfter subscriber psp dp).backend = x.backend ∧
      (retryRequest p y req retryAfter subscriber psp dp).backend = y.backend ∧
      (retryRequest p x req retryAfter subscriber psp dp).db = x.db ∧
      (retryRequest p y req retryAfter subscriber psp dp).db = y.db ∧
      (retryRequest p x req retryAfter subscriber psp dp).ticks =
        (retryRequest p y req retryAfter subscriber psp dp).ticks ∧
      structural a = [] := by
  by_cases h : p.max_nr_retry ≤ req.nrRetries
  · rw [retryRequest_of_le p x req retryAfter subscriber psp dp h,
      retryRequest_of_le p y req retryAfter subscriber psp dp h]
    exact ⟨[], by simp, by simp, rfl, rfl, rfl, rfl, ht, rfl⟩
  · have h2 : ¬ req.nrRetries ≥ p.max_nr_retry := h
    refine ⟨(retryRequest p ⟨x.backend, x.db, x.ticks, []⟩ req retryAfter subscriber psp dp).trace,
      ?_, ?_, ?_, ?_, ?_, ?_, ?_, ?_⟩ <;>
      simp [retryRequest, h2, ht, structural, Event.isStructural]

theorem refreshed_frame {β δ : Type} (p : PushProcessor β δ) (x y : World β δ)
    (rpsp : Option PushServiceProvider) (rdp : Option DeliveryPoint) :
    ∃ a,
      (refreshed p x rpsp rdp).trace = x.trace ++ a ∧
      (refreshed p y rpsp rdp).trace = y.trace ++ a ∧
      (refreshed p x rpsp rdp).backend = x.backend ∧
      (refreshed p y rpsp rdp).backend = y.backend ∧
      (x.db = y.db → (refreshed p x rpsp rdp).db = (refreshed p y rpsp rdp).db) ∧
      (refreshed p x rpsp rdp).ticks = x.ticks ∧
      (refreshed p y rpsp rdp).ticks = y.ticks ∧
      structural a = [] := by
  cases rpsp with
  | none =>
    cases rdp with
    | none => exact ⟨[], by simp [refreshed], by simp [refreshed], rfl, rfl, fun h => h, rfl, rfl, rfl⟩
    | some v =>
      exact ⟨[Event.ModifyDeliveryPoint v], rfl, rfl, rfl, rfl,
        fun h => by simp [refreshed, h], rfl, rfl, rfl⟩
  | some u =>
    cases rdp with
    | none =>
      exact ⟨[Event.ModifyPushServiceProvider u], rfl, rfl, rfl, rfl,
        fun h => by simp [refreshed, h], rfl, rfl, rfl⟩
    | some v =>
      exact ⟨[Event.ModifyPushServiceProvider u, Event.ModifyDeliveryPoint v],
        by simp [refreshed], by simp [refreshed], rfl, rfl,
        fun h => by simp [refreshed, h], rfl, rfl, rfl⟩

theorem pushBody_frame {β δ : Type} (p : PushProcessor β δ) (req : Request)
    (service subscriber : String) (subid : Nat) (psp : PushServiceProvider) (dp : DeliveryPoint)
    (x y : World β δ) (hb : x.backend = y.backend) (ht : x.ticks = y.ticks) :
    ∃ a,
      (pushBody p req service subscriber subid ⟨psp, dp⟩ x []).1 =
        (pushBody p req service subscriber subid ⟨psp, dp⟩ y []).1 ∧
      (pushBody p req service subscriber subid ⟨psp, dp⟩ x []).2.1.trace ++
        (pushBody p req service subscriber subid ⟨psp, dp⟩ x []).2.2 = x.trace ++ a ∧
      (pushBody p req service subscriber subid ⟨psp, dp⟩ y []).2.1.trace ++
        (pushBody p req service subscriber subid ⟨psp, dp⟩ y []).2.2 = y.trace ++ a ∧
      structural a = [] ∧
      (pushBody p req service subscriber subid ⟨psp, dp⟩ x []).2.1.backend =
        (pushBody p req service subscriber subid ⟨psp, dp⟩ y []).2.1.backend ∧
      (pushBody p req service subscriber subid ⟨psp, dp⟩ x []).2.1.ticks =
        (pushBody p req service subscriber subid ⟨psp, dp⟩ y []).2.1.ticks ∧
      (x.db = y.db →
        (pushBody p req service subscriber subid ⟨psp, dp⟩ x []).2.1.db =
          (pushBody p req service subscriber subid ⟨psp, dp⟩ y []).2.1.db) := by
  rcases pushBody_shape p req service subscriber subid psp dp x.backend with
    ⟨-, h⟩ | ⟨-, out, rpsp, rdp, retry, d, h, -, hdp⟩
  · rw [h x [], h y []]
    exact ⟨[], rfl, by simp, by simp, rfl, hb, ht, fun hdb => hdb⟩
  · rw [h x [] rfl, h y [] hb.symm]
    have hsd : structural d = [] := structural_eq_nil d (fun e he => (hdp e he).1)
    have hib : (invoked p x req psp dp).backend = (invoked p y req psp dp).backend := by
      simp [invoked, hb]
    obtain ⟨a1, hx1, hy1, hbx1, hby1, hdb1, htx1, hty1, hs1⟩ :=
      refreshed_frame p (invoked p x req psp dp) (invoked p y req psp dp) rpsp rdp
    cases retry with
    | none =>
      refine ⟨Event.Push psp (some dp) req.Notification :: (a1 ++ d), rfl, ?_, ?_, ?_, ?_, ?_, ?_⟩
      · simp only [List.append_nil]
        rw [hx1]
        simp [invoked]
      · simp only [List.append_nil]
        rw [hy1]
        simp [invoked]
      · rw [← List.singleton_append, structural_append, structural_append, hs1, hsd]
        rfl
      · simp only [hbx1, hby1, hib]
      · simp only [htx1, hty1]
        exact ht
      · intro hdb
        exact hdb1 hdb
    | some n =>
      obtain ⟨a2, hx2, hy2, hbx2, hby2, hdx2, hdy2, ht2, hs2⟩ :=
        retryRequest_frame p (refreshed p (invoked p x req psp dp) rpsp rdp)
          (refreshed p (invoked p y req psp dp) rpsp rdp)
          req n subscriber (some psp) (some dp) (by rw [htx1, hty1]; exact ht)
      refine ⟨Event.Push psp (some dp) req.Notification :: (a1 ++ a2 ++ d), rfl, ?_, ?_, ?_, ?_, ?_, ?_⟩
      · simp only [List.append_nil]
        rw [hx2, hx1]
        simp [invoked]
      · simp only [List.append_nil]
        rw [hy2, hy1]
        simp [invoked]
      · rw [← List.singleton_append, structural_append, structural_append, structural_append,
          hs1, hs2, hsd]
        rfl
      · simp only [hbx2, hby2, hbx1, hby1, hib]
      · exact ht2
      · intro hdb
        simp only [hdx2, hdy2]
        exact hdb1 hdb

/-- C8: for a request with one subscriber and an attached pair, and a store
that answers the lookup of that subscriber with exactly that pair and no error,
`pushToSingleDeliveryPoint` returns the outcome list of `push` for the
subscriber at index 0; after the trace so far it has the effects `added`,
among them no lookup, where `push` has the lookup followed by the same effects
`added` (the same backend invocation, store updates, retry submission and
failure event, in the same order); both leave the same backend state and the
same number of clock readings, and the same store state if the lookup left the
store state as it was. -/
theorem pushToSingleDeliveryPoint_refines_push {β δ : Type} (p : PushProcessor β δ)
    (w : World β δ) (req : Request) (subscriber : String) (psp : PushServiceProvider)
    (dp : DeliveryPoint) (db1 : δ) (hs : req.Subscribers = [subscriber])
    (hp : req.PushServiceProvider = some psp) (hd : req.DeliveryPoint = some dp)
    (hstore : p.GetPushServiceProviderDeliveryPointPairs w.db req.Service subscriber =
      (([⟨psp, dp⟩], none), db1)) :
    ∃ outs ws added,
      pushToSingleDeliveryPoint p w req = Run.ok (outs, ws) ∧
      (push p w req req.Service subscriber 0).1 = outs ∧
      ws.trace = w.trace ++ added ∧
      (push p w req req.Service subscriber 0).2.trace =
        w.trace ++ Event.GetPairs req.Service subscriber :: added ∧
      resolutions added = 0 ∧
      resolutions ws.trace = resolutions w.trace ∧
      ws.backend = (push p w req req.Service subscriber 0).2.backend ∧
      ws.ticks = (push p w req req.Service subscriber 0).2.ticks ∧
      (db1 = w.db → ws.db = (push p w req req.Service subscriber 0).2.db) := by
  have hsingle := pushToSingleDeliveryPoint_eq_pushBody p w req subscriber [] psp dp hs hp hd
  obtain ⟨w2, hw2⟩ : ∃ w2 : World β δ,
      w2 = ⟨w.backend, db1, w.ticks, w.trace ++ [Event.GetPairs req.Service subscriber]⟩ :=
    ⟨_, rfl⟩
  have hpush : push p w req req.Service subscriber 0 =
      ([(pushBody p req req.Service subscriber 0 ⟨psp, dp⟩ w2 []).1],
       { (pushBody p req req.Service subscriber 0 ⟨psp, dp⟩ w2 []).2.1 with
         trace := (pushBody p req req.Service subscriber 0 ⟨psp, dp⟩ w2 []).2.1.trace ++
          (pushBody p req req.Service subscriber 0 ⟨psp, dp⟩ w2 []).2.2 }) := by
    rw [hw2]
    simp [push, hstore, pushLoop]
  obtain ⟨a, hout, hx, hy, hsa, hbk, htk, hdb⟩ :=
    pushBody_frame p req req.Service subscriber 0 psp dp w w2 (by rw [hw2]) (by rw [hw2])
  refine ⟨_, _, a, hsingle, ?_, hx, ?_, ?_, ?_, ?_, ?_, ?_⟩
  · rw [hpush, hout]
  · rw [hpush]
    show (pushBody p req req.Service subscriber 0 ⟨psp, dp⟩ w2 []).2.1.trace ++
      (pushBody p req req.Service subscriber 0 ⟨psp, dp⟩ w2 []).2.2 = _
    rw [hy, hw2]
    simp
  · rw [resolutions_structural, hsa]
    rfl
  · simp only [hx]
    rw [resolutions_structural, structural_append, hsa, List.append_nil,
      ← resolutions_structural]
  · rw [hpush]
    exact hbk
  · rw [hpush]
    exact htk
  · intro h1
    rw [hpush]
    exact hdb (by rw [hw2, h1])

theorem pushToSingleDeliveryPoint_refines_push_witness :
    ∃ outs ws added,
      pushToSingleDeliveryPoint sampleProcessor sampleWorld
        { sampleRequest ["a"] with
          PushServiceProvider := some sampleProvider, DeliveryPoint := some sampleDevice } =
        Run.ok (outs, ws) ∧
      (push sampleProcessor sampleWorld
        { sampleRequest ["a"] with
          PushServiceProvider := some sampleProvider, DeliveryPoint := some sampleDevice }
        "service" "a" 0).1 = outs ∧
      ws.trace = sampleWorld.trace ++ added ∧
      resolutions added = 0 := by
  obtain ⟨outs, ws, added, h1, h2, h3, -, h5, -⟩ :=
    pushToSingleDeliveryPoint_refines_push sampleProcessor sampleWorld
      { sampleRequest ["a"] with
        PushServiceProvider := some sampleProvider, DeliveryPoint := some sampleDevice }
      "a" sampleProvider sampleDevice () rfl rfl rfl rfl
  exact ⟨outs, ws, added, h1, h2, h3, h5⟩

end Uniqush
